import Mathlib

/-!
# AsyncTcpSignalServer: signal table, admission, snapshot and session delivery

A shallow embedding of the admission-checking server (`src/Server/Server.cpp`:
signal API, dispatcher, accept loop), of the session (`src/Server2/Session.cpp`,
`src/Include/Protocol.h`, `src/Utils/Utils.h`) and of the header check and the
record decoder of the client (`src/Server/Client.cpp`).

Conventions of the embedding

* `uint8_t`, `uint32_t`, `uint64_t` values are natural numbers; where the code
  stores a value into a fixed number of bytes the embedding takes the bytes
  with `/ 256 ^ i % 256`.
* `Signal::value` is a `double`; the code only copies it and `memcpy`s it into
  a `uint64_t`, so the embedding keeps its 64-bit IEEE-754 pattern.
* `Signal::ts` is a `steady_clock::time_point`; the embedding keeps its tick
  count, an integer, which is what `>=` compares.
* `std::unordered_map<uint32_t, Signal>` is an association list with one pair
  per key; the list order stands for the (unspecified) iteration order.
* `std::weak_ptr<Session>` is a handle into a store of the `Session` objects
  that are still alive; `lock()` is the lookup in that store.
* `asio::post(m_strand, f)` appends `f` to the list of handlers the strand of
  the session still has to run.
* The completion handlers of `asio::async_read` and `asio::async_write` are
  functions of the error flag and of the bytes read; `sessionStep` lets them and
  the posted handlers run in any order, one at a time, as the strand does. An
  operation that is still outstanding when the socket is closed completes with
  an error.
* The byte swapping helpers are the `_WIN32` branch of `Utils.h` (the header
  includes `windows.h` unconditionally), and the object representation of an
  integer is little-endian, as on every Windows target.
-/

namespace SignalServer

/-! ## Protocol.h -/

/-- The constant `SIGNAL_HEADER_SIGNATURE`. -/
def SIGNAL_HEADER_SIGNATURE : Nat := 0xAA55

/-- The enumerators of `ESignalType`, as their underlying `uint8_t`. -/
def ESignalType.unknown : Nat := 0

/-- The enumerator `discret = 1 << 0`. -/
def ESignalType.discret : Nat := 1 <<< 0

/-- The enumerator `analog = 1 << 1`. -/
def ESignalType.analog : Nat := 1 <<< 1

/-- The struct `Signal`: `type` is the underlying byte of the `ESignalType`,
`value` the bit pattern of the `double`, `ts` the tick count of the time point. -/
structure Signal where
  id : Nat
  type : Nat
  value : Nat
  ts : Int
  deriving DecidableEq, Repr

/-! ## The signal table `m_state` -/

/-- The type of `m_state`: pairs of a key and the signal stored under it. -/
abbrev Table := List (Nat × Signal)

/-- The keys of a table, in iteration order. -/
def Table.keys (T : Table) : List Nat := T.map Prod.fst

/-- Keys are unique, as in every `std::unordered_map`. -/
def Table.WF (T : Table) : Prop := T.keys.Nodup

instance Table.decidableWF (T : Table) : Decidable T.WF :=
  inferInstanceAs (Decidable T.keys.Nodup)

/-- The lookup `m_state.find(k)`: `none` stands for `m_state.end()`. -/
def Table.find (T : Table) (k : Nat) : Option Signal :=
  match T with
  | [] => none
  | (k', v) :: rest => if k' = k then some v else Table.find rest k

/-- The overwrite of the entry of an existing key by `m_state[k] = v`. -/
def Table.replace (T : Table) (k : Nat) (v : Signal) : Table :=
  match T with
  | [] => []
  | (k', w) :: rest =>
    if k' = k then (k, v) :: Table.replace rest k v else (k', w) :: Table.replace rest k v

/-- The statement `m_state[k] = v`: `operator[]` inserts the key when it is
absent, then the mapped value is assigned. -/
def Table.assign (T : Table) (k : Nat) (v : Signal) : Table :=
  match Table.find T k with
  | some _ => Table.replace T k v
  | none => T ++ [(k, v)]

/-! ## Session (Session.cpp) -/

/-- A frame on the wire: a list of bytes. -/
abbrev Frame := List Nat

/-- The handlers that the code posts to the strand of a session. -/
inductive StrandTask where
  /-- the lambda posted by `Session::DeliverUpdates(updates)` -/
  | deliver (updates : List Signal)
  /-- the lambda posted by `Session::ForceClose`, which calls `close()` -/
  | forceClose
  /-- the lambda posted by `Session::close`, which clears the write queue -/
  | clearQueue
  deriving DecidableEq, Repr

/-- The read that a session has outstanding on its socket. -/
inductive ReadOp where
  /-- the `asio::async_read` of `async_read_header`, into `m_buf_header` -/
  | header
  /-- the `asio::async_read` of `async_read_body(len, dataType)`, into the
  `len` bytes of `m_buf_body` -/
  | body (len : Nat) (dataType : Nat)
  deriving DecidableEq, Repr

/-- The members of `Session` that the handlers read and write, together with
the handlers posted to `m_strand` and not yet run (`strand`), the frames for
which `asio::async_write` was called (`async_writes`, oldest first), the
number of `shutdown`/`close` calls made on the socket (`socket_closes`), the
number of `asio::async_write` operations started and not yet completed
(`writes_in_flight`) and the outstanding `asio::async_read` (`async_read`). -/
structure Session where
  m_socket_open : Bool := true
  m_req_type : Nat := 0
  m_que_write : List Frame := []
  m_writing : Bool := false
  m_closing : Bool := false
  m_cnt_read_packet : Nat := 0
  strand : List StrandTask := []
  async_writes : List Frame := []
  socket_closes : Nat := 0
  writes_in_flight : Nat := 0
  async_read : Option ReadOp := none
  deriving DecidableEq, Repr

/-- The bytes of an `n`-byte unsigned integer as `memcpy` reads them from
memory on the (little-endian) host. -/
def memBytes (n x : Nat) : List Nat :=
  (List.range n).map (fun i => x / 256 ^ i % 256)

/-- The value of an unsigned integer whose bytes in memory are `bs`. -/
def ofMemBytes (bs : List Nat) : Nat :=
  match bs with
  | [] => 0
  | b :: rest => b % 256 + 256 * ofMemBytes rest

/-- The intrinsic `_byteswap_ushort`, `_byteswap_ulong` or `_byteswap_uint64`
on an `n`-byte unsigned integer: the byte order is reversed. -/
def byteswap (n x : Nat) : Nat := ofMemBytes (memBytes n x).reverse

/-- The helper `host_to_net_u16` of `Utils.h`. -/
def host_to_net_u16 (x : Nat) : Nat := byteswap 2 x

/-- The helper `host_to_net_u32` of `Utils.h`. -/
def host_to_net_u32 (x : Nat) : Nat := byteswap 4 x

/-- The helper `net_to_host_u64` of `Utils.h`. -/
def net_to_host_u64 (x : Nat) : Nat := byteswap 8 x

/-- The helper `host_to_net_u64` of `Utils.h`. -/
def host_to_net_u64 (x : Nat) : Nat := net_to_host_u64 x

/-- The test `(uint8_t)e.type & m_req_type` of `DeliverUpdates` and
`(uint8_t)p.second.type & type` of `GetSnapshot`, as a C++ condition. -/
def typeMatches (type filter : Nat) : Bool := type &&& filter != 0

/-- The 13 bytes that one pass of the loop of `DeliverUpdates` appends to
`payload` for an update that is not skipped. -/
def recordBytes (e : Signal) : List Nat :=
  memBytes 4 (host_to_net_u32 e.id) ++ [e.type % 256] ++ memBytes 8 (host_to_net_u64 e.value)

/-- The loop `for (const auto& e : updates)` of `DeliverUpdates`, started with
the bytes already in `payload`. -/
def deliverLoop (m_req_type : Nat) (updates : List Signal) (payload : List Nat) : List Nat :=
  match updates with
  | [] => payload
  | e :: rest =>
    if !(typeMatches e.type m_req_type) then deliverLoop m_req_type rest payload
    else deliverLoop m_req_type rest (payload ++ recordBytes e)

/-- The bytes of the packed `SSignalProtocolHeader` that `DeliverUpdates`
fills in for a payload of `len` bytes. -/
def dataHeader (len : Nat) : List Nat :=
  memBytes 2 (host_to_net_u16 SIGNAL_HEADER_SIGNATURE) ++ [1] ++ [0x02]
    ++ memBytes 4 (host_to_net_u32 (len % 2 ^ 32))

/-- The frame that `DeliverUpdates` builds: header, then the payload. -/
def buildFrame (m_req_type : Nat) (updates : List Signal) : Frame :=
  let payload := deliverLoop m_req_type updates []
  dataHeader payload.length ++ payload

/-- The method `Session::do_write`. -/
def do_write (s : Session) : Session :=
  if !s.m_socket_open then { s with m_que_write := [], m_writing := false }
  else
    match s.m_que_write with
    | [] => { s with m_writing := false }
    | frame :: _ =>
      { s with m_writing := true, async_writes := s.async_writes ++ [frame],
               writes_in_flight := s.writes_in_flight + 1 }

/-- The method `Session::close`. -/
def close (s : Session) : Session :=
  if s.m_closing then s
  else
    let s1 := { s with m_closing := true }
    let s2 := if s1.m_socket_open
      then { s1 with m_socket_open := false, socket_closes := s1.socket_closes + 1 }
      else s1
    { s2 with strand := s2.strand ++ [StrandTask.clearQueue] }

/-- The method `Session::ForceClose`: it posts a handler and returns. -/
def ForceClose (s : Session) : Session :=
  { s with strand := s.strand ++ [StrandTask.forceClose] }

/-- The method `Session::DeliverUpdates`: it posts a handler and returns. -/
def DeliverUpdates (updates : List Signal) (s : Session) : Session :=
  { s with strand := s.strand ++ [StrandTask.deliver updates] }

/-- The body of the handler that `DeliverUpdates` posts. The final store of the
clock into `m_time_last_send`, which nothing reads, is left out. -/
def deliverTask (updates : List Signal) (s : Session) : Session :=
  if !s.m_socket_open then s
  else
    let frame := buildFrame s.m_req_type updates
    let need_start := s.m_que_write.isEmpty && !s.m_writing
    let s1 := { s with m_que_write := s.m_que_write ++ [frame] }
    if need_start then do_write s1 else s1

/-- The body of a posted handler. -/
def runTask (t : StrandTask) (s : Session) : Session :=
  match t with
  | StrandTask.deliver updates => deliverTask updates s
  | StrandTask.forceClose => close s
  | StrandTask.clearQueue => { s with m_que_write := [], m_writing := false }

/-- The strand runs the oldest posted handler, if there is one. -/
def strandStep (s : Session) : Session :=
  match s.strand with
  | [] => s
  | t :: rest => runTask t { s with strand := rest }

/-- The strand runs up to `fuel` handlers, oldest first. -/
def strandRun (fuel : Nat) (s : Session) : Session :=
  match fuel with
  | 0 => s
  | fuel + 1 => strandRun fuel (strandStep s)

/-! ## The read and write handlers of a session (Session.cpp) -/

/-- The struct `SSignalProtocolHeader` of `Protocol.h`, each field holding the
integer that the host reads from it. -/
structure SSignalProtocolHeader where
  signature : Nat
  version : Nat
  dataType : Nat
  len : Nat
  deriving DecidableEq, Repr

/-- The byte `buf[i]`. -/
def byteAt (buf : List Nat) (i : Nat) : Nat := buf.getD i 0 % 256

/-- The statement `std::memcpy(&hdr, m_buf_header.data(), sizeof(hdr))` on the
packed struct: two bytes of signature, one of version, one of type, four of
length. -/
def readHeader (buf : List Nat) : SSignalProtocolHeader :=
  { signature := ofMemBytes (buf.take 2)
    version := byteAt buf 2
    dataType := byteAt buf 3
    len := ofMemBytes ((buf.drop 4).take 4) }

/-- The helper `net_to_host_u16` of `Utils.h`. -/
def net_to_host_u16 (x : Nat) : Nat := host_to_net_u16 x

/-- The helper `net_to_host_u32` of `Utils.h`. -/
def net_to_host_u32 (x : Nat) : Nat := host_to_net_u32 x

/-- The method `Session::async_read_header` (also `Session::Start`): it starts
the read of a header unless the socket is closed. -/
def async_read_header (s : Session) : Session :=
  if !s.m_socket_open then s else { s with async_read := some ReadOp.header }

/-- The method `Session::async_read_body`: it sizes `m_buf_body` to `len` bytes
and starts the read of the body unless the socket is closed. -/
def async_read_body (len dataType : Nat) (s : Session) : Session :=
  if !s.m_socket_open then s else { s with async_read := some (ReadOp.body len dataType) }

/-- The completion handler of the read started by `async_read_header`; `ec` says
whether the read failed, `buf` is `m_buf_header`. -/
def onReadHeader (ec : Bool) (buf : List Nat) (s : Session) : Session :=
  if ec then close s
  else
    let s1 := { s with m_cnt_read_packet := s.m_cnt_read_packet + 1 }
    if s1.m_cnt_read_packet > 1 then close s1
    else
      let hdr := readHeader buf
      if net_to_host_u16 hdr.signature != SIGNAL_HEADER_SIGNATURE then close s1
      else if hdr.version != 1 then close s1
      else
        let dataType := hdr.dataType
        let len := net_to_host_u32 hdr.len
        if len > 10 * 1024 * 1024 then close s1
        else async_read_body len dataType s1

/-- The completion handler of the write started by `do_write`; `ec` says
whether the write failed. `pop_front` is the tail of the queue. -/
def onWrite (ec : Bool) (s : Session) : Session :=
  if ec then close s
  else
    let s1 := { s with m_que_write := s.m_que_write.tail }
    if !s1.m_que_write.isEmpty then do_write s1 else { s1 with m_writing := false }

/-! ## Server (Server.cpp) -/

/-- The members of `Server` that the signal API reads and writes. A
`std::weak_ptr<Session>` of `m_subscribers` is the handle of the session. -/
structure Server where
  m_state : Table := []
  m_queue : List Signal := []
  m_subscribers : List Nat := []
  deriving DecidableEq, Repr

/-- The `Session` objects that are alive, by handle: `lock()` of a weak pointer
is the lookup, `none` when the session has been destroyed. -/
abbrev Sessions := Nat → Option Session

/-- The method `Server::PushSignal`: the new state and the returned `bool`. -/
def PushSignal (s : Signal) (srv : Server) : Server × Bool :=
  let it := srv.m_state.find s.id
  let admitted : Bool :=
    match it with
    | some stored => decide (s.ts ≥ stored.ts)
    | none => false
  if admitted then
    ({ srv with m_state := srv.m_state.assign s.id s, m_queue := srv.m_queue ++ [s] }, true)
  else (srv, false)

/-- The method `Server::GetSignal`. -/
def GetSignal (id : Nat) (srv : Server) : Option Signal := srv.m_state.find id

/-- The loop of `Server::GetSnapshot` over the entries of `m_state`. -/
def snapshotLoop (type : Nat) (T : Table) (out : List Signal) : List Signal :=
  match T with
  | [] => out
  | p :: rest =>
    if typeMatches p.2.type type then snapshotLoop type rest (out ++ [p.2])
    else snapshotLoop type rest out

/-- The method `Server::GetSnapshot`: the (unchanged) state and the result. -/
def GetSnapshot (type : Nat) (srv : Server) : Server × List Signal :=
  (srv, snapshotLoop type srv.m_state [])

/-- The method `Server::RegisterSession`. -/
def RegisterSession (self : Nat) (srv : Server) : Server :=
  { srv with m_subscribers := srv.m_subscribers ++ [self] }

/-- The loop of the `SetSignals` handler over `m_subscribers`: a live entry
gets `ForceClose()` and is kept, an expired one is erased. -/
def closeLoop (subs : List Nat) (ss : Sessions) : List Nat × Sessions :=
  match subs with
  | [] => ([], ss)
  | w :: rest =>
    match ss w with
    | some sp =>
      let r := closeLoop rest (fun h => if h = w then some (ForceClose sp) else ss h)
      (w :: r.1, r.2)
    | none => closeLoop rest ss

/-- The loop `for (auto s : vecSignal) m_state[s.id] = s;`. -/
def setLoop (vecSignal : List Signal) (T : Table) : Table :=
  match vecSignal with
  | [] => T
  | s :: rest => setLoop rest (T.assign s.id s)

/-- The handler that `Server::SetSignals` posts to the io context. -/
def SetSignalsHandler (vecSignal : List Signal) (srv : Server) (ss : Sessions) :
    Server × Sessions :=
  let r := closeLoop srv.m_subscribers ss
  ({ srv with m_subscribers := r.1, m_state := setLoop vecSignal [] }, r.2)

/-- The method `Session::handle_subscribe` of the session with handle `self`. -/
def handle_subscribe (payload : List Nat) (self : Nat) (srv : Server) (s : Session) :
    Server × Session :=
  match payload with
  | [] => (srv, close s)
  | b :: _ =>
    let s1 := { s with m_req_type := b }
    let srv1 := RegisterSession self srv
    let snap := (GetSnapshot s1.m_req_type srv1).2
    if !snap.isEmpty then (srv1, DeliverUpdates snap s1) else (srv1, s1)

/-- A run of `PushSignal` calls, in order. -/
def pushAll (ps : List Signal) (srv : Server) : Server :=
  match ps with
  | [] => srv
  | p :: rest => pushAll rest (PushSignal p srv).1

/-- The pushes of a run that `PushSignal` admitted, in order. -/
def admittedOf (ps : List Signal) (srv : Server) : List Signal :=
  match ps with
  | [] => []
  | p :: rest =>
    if (PushSignal p srv).2 then p :: admittedOf rest (PushSignal p srv).1
    else admittedOf rest (PushSignal p srv).1

/-- The completion handler of the read started by `async_read_body`; `body` is
`m_buf_body`. -/
def onReadBody (ec : Bool) (dataType : Nat) (body : List Nat) (self : Nat) (srv : Server)
    (s : Session) : Server × Session :=
  if ec then (srv, close s)
  else
    let r := if dataType = 0x01 then handle_subscribe body self srv s else (srv, s)
    (r.1, async_read_header r.2)

/-- What can happen to a session: the calls that other threads make on it, and
the handlers that its strand runs. -/
inductive SessionEvent where
  /-- the dispatcher calls `DeliverUpdates(updates)` -/
  | callDeliverUpdates (updates : List Signal)
  /-- the server calls `ForceClose()` -/
  | callForceClose
  /-- the strand runs the oldest posted handler -/
  | runPosted
  /-- the write in flight completes, with an error when `ec` -/
  | writeDone (ec : Bool)
  /-- the outstanding read completes with the bytes received, with an error
  when `ec` -/
  | readDone (ec : Bool) (bytes : List Nat)
  deriving DecidableEq, Repr

/-- One event on the session of handle `self`. An operation that completes
after the socket was closed completes with an error (`operation_aborted`), and
a read that did not fill its buffer completes with an error (`eof`). -/
def sessionStep (self : Nat) (ev : SessionEvent) (w : Server × Session) : Server × Session :=
  match ev with
  | SessionEvent.callDeliverUpdates updates => (w.1, DeliverUpdates updates w.2)
  | SessionEvent.callForceClose => (w.1, ForceClose w.2)
  | SessionEvent.runPosted => (w.1, strandStep w.2)
  | SessionEvent.writeDone ec =>
    if w.2.writes_in_flight = 0 then w
    else
      (w.1, onWrite (ec || !w.2.m_socket_open)
        { w.2 with writes_in_flight := w.2.writes_in_flight - 1 })
  | SessionEvent.readDone ec bytes =>
    match w.2.async_read with
    | none => w
    | some ReadOp.header =>
      (w.1, onReadHeader (ec || !w.2.m_socket_open || decide (bytes.length < 8)) (bytes.take 8)
        { w.2 with async_read := none })
    | some (ReadOp.body len dataType) =>
      onReadBody (ec || !w.2.m_socket_open || decide (bytes.length < len)) dataType
        (bytes.take len) self w.1 { w.2 with async_read := none }

/-- A run of events on one session, oldest first. -/
def sessionRun (self : Nat) (evs : List SessionEvent) (w : Server × Session) :
    Server × Session :=
  match evs with
  | [] => w
  | ev :: rest => sessionRun self rest (sessionStep self ev w)

/-! ## The dispatcher (Server.cpp) -/

/-- The loop `while (!m_queue.empty())` of `dispatcher_loop`: the queue that is
left and the batch. -/
def drainLoop (m_queue : List Signal) (batch : List Signal) : List Signal × List Signal :=
  match m_queue with
  | [] => ([], batch)
  | front :: rest => drainLoop rest (batch ++ [front])

/-- The loop of `dispatcher_loop` over `m_subscribers`: a live entry gets
`DeliverUpdates(batch)` and is kept, an expired one is erased. -/
def broadcastLoop (batch : List Signal) (subs : List Nat) (ss : Sessions) : List Nat × Sessions :=
  match subs with
  | [] => ([], ss)
  | w :: rest =>
    match ss w with
    | some sp =>
      let r := broadcastLoop batch rest
        (fun h => if h = w then some (DeliverUpdates batch sp) else ss h)
      (w :: r.1, r.2)
    | none => broadcastLoop batch rest ss

/-- One pass of the body of `while (m_running)` in `Server::dispatcher_loop`,
after the wait on the condition variable has returned. -/
def dispatcherIteration (srv : Server) (ss : Sessions) : Server × Sessions :=
  let d := drainLoop srv.m_queue []
  let srv1 := { srv with m_queue := d.1 }
  let batch := d.2
  if !batch.isEmpty then
    let r := broadcastLoop batch srv1.m_subscribers ss
    ({ srv1 with m_subscribers := r.1 }, r.2)
  else (srv1, ss)

/-! ## The client (Client.cpp) -/

/-- A line that `Client::process_body` writes to `std::cout`: an update with
its id, type byte and the 64-bit pattern of its value, an alive message, or a
message of unknown type. -/
inductive ClientOutput where
  | update (id : Nat) (type : Nat) (ubits : Nat)
  | alive
  | unknown (data_type : Nat)
  deriving DecidableEq, Repr

/-- The members of `Client` that the read path touches, the lines written so
far (`out`), the number of calls of `schedule_reconnect` and the read that is
outstanding on the socket (`async_read`). -/
structure Client where
  m_socket_open : Bool := true
  m_msg_num : Nat := 0
  out : List ClientOutput := []
  reconnects : Nat := 0
  async_read : Option ReadOp := none
  deriving DecidableEq, Repr

/-- The socket function `ntohl` on the little-endian host. -/
def ntohl (x : Nat) : Nat := byteswap 4 x

/-- One pass of the loop of `process_body` on the bytes from `pos` on: the id,
the type byte and the bits of the value. -/
def decodeRecord (rest : List Nat) : ClientOutput :=
  ClientOutput.update (ntohl (ofMemBytes (rest.take 4))) (byteAt rest 4)
    (net_to_host_u64 (ofMemBytes ((rest.drop 5).take 8)))

/-- The loop `while (pos + 13 <= body.size())` of `process_body`; `rest` is the
part of `body` from `pos` on, and `fuel` bounds the number of passes. -/
def recordLoop (fuel : Nat) (rest : List Nat) (out : List ClientOutput) : List ClientOutput :=
  match fuel with
  | 0 => out
  | fuel + 1 =>
    if 13 ≤ rest.length then recordLoop fuel (rest.drop 13) (out ++ [decodeRecord rest])
    else out

/-- The method `Client::process_body`. The loop makes at most `body.size()`
passes. -/
def process_body (data_type : Nat) (body : List Nat) (c : Client) : Client :=
  if data_type = 0x02 then { c with out := recordLoop body.length body c.out }
  else if data_type = 0x03 then { c with out := c.out ++ [ClientOutput.alive] }
  else { c with out := c.out ++ [ClientOutput.unknown data_type] }

/-- The method `Client::schedule_reconnect`: the socket is closed and the
reconnect timer armed. -/
def schedule_reconnect (c : Client) : Client :=
  { c with m_socket_open := false, reconnects := c.reconnects + 1 }

/-! ## The wire layout in the words of the specification -/

/-- The `n` bytes of `x` in network byte order, most significant first. -/
def bigEndian (n x : Nat) : List Nat :=
  match n with
  | 0 => []
  | n + 1 => (x / 256 ^ n % 256) :: bigEndian n x

/-- The unsigned integer that a list of bytes holds in network byte order. -/
def ofBigEndian (bs : List Nat) : Nat :=
  bs.foldl (fun acc b => acc * 256 + b % 256) 0

/-- The record of the specification: `id: u32 BE`, `type: u8`, `value: f64 BE`. -/
def specRecord (e : Signal) : List Nat :=
  bigEndian 4 e.id ++ [e.type % 256] ++ bigEndian 8 e.value

/-- The data frame of the specification for the records `es`: signature
`0xAA55`, version 1, type `0x02`, the payload length, then the records. -/
def specDataFrame (es : List Signal) : Frame :=
  [0xAA, 0x55, 1, 0x02] ++ bigEndian 4 (13 * es.length) ++ (es.map specRecord).flatten

/-- The header that the specification accepts: the big-endian signature is
`0xAA55`, the version byte is 1 and the big-endian length is at most
`10 * 2 ^ 20`. -/
def specHeaderAccepted (buf : List Nat) : Prop :=
  ofBigEndian (buf.take 2) = 0xAA55 ∧ byteAt buf 2 = 1 ∧
    ofBigEndian ((buf.drop 4).take 4) ≤ 10 * 2 ^ 20

instance specHeaderAccepted.decidable (buf : List Nat) : Decidable (specHeaderAccepted buf) :=
  inferInstanceAs (Decidable (_ ∧ _ ∧ _))

/-- The session has counted a header, and the read it may have outstanding is
not the read of the body of a subscribe frame. -/
def pastFirstFrame (s : Session) : Prop :=
  1 ≤ s.m_cnt_read_packet ∧ ∀ len dt, s.async_read = some (ReadOp.body len dt) → dt ≠ 0x01

/-- The invariant of a session between two handlers: the closing latch is set
exactly when the socket is closed, `m_writing` is set exactly when the write
queue is not empty, at most one write is in flight, on an open socket a write
is in flight exactly when `m_writing` is set, the socket was shut down once if
it is closed and never if it is open, and the handler that clears the queue is
only posted on a closed socket. -/
def writeInv (s : Session) : Prop :=
  s.m_closing = !s.m_socket_open ∧
    s.m_writing = !s.m_que_write.isEmpty ∧
    s.writes_in_flight ≤ 1 ∧
    (s.m_socket_open = true → (s.writes_in_flight = 1 ↔ s.m_writing = true)) ∧
    s.socket_closes = (if s.m_socket_open then 0 else 1) ∧
    (StrandTask.clearQueue ∈ s.strand → s.m_socket_open = false)

instance writeInv.decidable (s : Session) : Decidable (writeInv s) :=
  inferInstanceAs (Decidable (_ ∧ _ ∧ _ ∧ _ ∧ _ ∧ _))

/-- The `error_code` that a completion handler receives: success, the values
of `boost::asio::error` that the code compares with, or any other error. -/
inductive ErrorCode where
  | success
  | operation_aborted
  | would_block
  | interrupted
  | eof
  | connection_reset
  | other (value : Nat)
  deriving DecidableEq, Repr

/-- A call of `write_error` by the accept handler. -/
inductive AcceptLog where
  /-- the text `Accept error` -/
  | acceptError (ec : ErrorCode)
  /-- the text `Accept error, STOP ACCEPT!` -/
  | stopAccept (ec : ErrorCode)
  deriving DecidableEq, Repr

/-- The acceptor of the server: the number of `async_accept` operations that
are outstanding, the sessions that the handler has created and started, and
the errors it has written. -/
structure Acceptor where
  accept_pending : Nat := 0
  started : List Session := []
  log : List AcceptLog := []
  deriving DecidableEq, Repr

/-- The method `Server::do_accept`: it starts one `async_accept`. -/
def do_accept (a : Acceptor) : Acceptor :=
  { a with accept_pending := a.accept_pending + 1 }

/-- The completion handler of the `async_accept` of `Server::do_accept` in
`src/Server/Server.cpp`. -/
def onAccept (ec : ErrorCode) (a : Acceptor) : Acceptor :=
  if ec = ErrorCode.success then
    do_accept { a with started := a.started ++ [async_read_header {}] }
  else if ec = ErrorCode.operation_aborted then a
  else if ec = ErrorCode.would_block ∨ ec = ErrorCode.interrupted then
    do_accept { a with log := a.log ++ [AcceptLog.acceptError ec] }
  else { a with log := a.log ++ [AcceptLog.stopAccept ec] }

/-- One completion of an accept: it happens only when an `async_accept` is
outstanding, and runs the handler. -/
def acceptStep (ec : ErrorCode) (a : Acceptor) : Acceptor :=
  if a.accept_pending = 0 then a
  else onAccept ec { a with accept_pending := a.accept_pending - 1 }

/-- A run of accept completions, oldest first. -/
def acceptRun (ecs : List ErrorCode) (a : Acceptor) : Acceptor :=
  match ecs with
  | [] => a
  | ec :: rest => acceptRun rest (acceptStep ec a)

/-- The fields of the header struct that `Client.cpp` reads from `m_header`,
each holding the integer that the host reads from it. The declaration of this
struct (it has a `msg_num`) is not among the sources, so the handler below
takes the struct as it is after the read. -/
structure ClientHeader where
  signature : Nat
  version : Nat
  data_type : Nat
  msg_num : Nat
  len : Nat
  deriving DecidableEq, Repr

/-- The method `Client::start_read_header`: it starts the read of a header
unless the socket is closed. -/
def start_read_header (c : Client) : Client :=
  if !c.m_socket_open then c else { c with async_read := some ReadOp.header }

/-- The method `Client::start_read_body`: an empty body is processed at once,
otherwise the read of `len` bytes is started. -/
def start_read_body (len data_type : Nat) (c : Client) : Client :=
  if len = 0 then start_read_header (process_body data_type [] c)
  else { c with async_read := some (ReadOp.body len data_type) }

/-- The completion handler of the read started by `Client::start_read_body`;
`body` is `m_body`. -/
def onClientBody (ec : ErrorCode) (data_type : Nat) (body : List Nat) (c : Client) : Client :=
  if ec = ErrorCode.operation_aborted then c
  else if ec ≠ ErrorCode.success then schedule_reconnect c
  else start_read_header (process_body data_type body c)

/-- The completion handler of the read started by `Client::start_read_header`;
`hdr` is `m_header`. -/
def onClientHeader (ec : ErrorCode) (hdr : ClientHeader) (c : Client) : Client :=
  if ec = ErrorCode.operation_aborted then c
  else if ec ≠ ErrorCode.success then schedule_reconnect c
  else if net_to_host_u16 hdr.signature != SIGNAL_HEADER_SIGNATURE then schedule_reconnect c
  else if hdr.version != 1 then schedule_reconnect c
  else if hdr.msg_num != c.m_msg_num then schedule_reconnect c
  else
    let c1 := { c with m_msg_num := c.m_msg_num + 1 }
    let len := net_to_host_u32 hdr.len
    if len > 10 * 1024 * 1024 then schedule_reconnect c1
    else start_read_body len hdr.data_type c1

/-! ## Runs of the signal API -/

/-- A call of the signal API that writes the table. -/
inductive ServerOp where
  /-- the handler of `SetSignals(vecSignal)` -/
  | setSignals (vecSignal : List Signal)
  /-- a call of `PushSignal(s)` -/
  | pushSignal (s : Signal)
  deriving DecidableEq, Repr

/-- One call of the signal API. -/
def applyOp (op : ServerOp) (w : Server × Sessions) : Server × Sessions :=
  match op with
  | ServerOp.setSignals vecSignal => SetSignalsHandler vecSignal w.1 w.2
  | ServerOp.pushSignal s => ((PushSignal s w.1).1, w.2)

/-- A run of calls of the signal API, oldest first. -/
def applyOps (ops : List ServerOp) (w : Server × Sessions) : Server × Sessions :=
  match ops with
  | [] => w
  | op :: rest => applyOps rest (applyOp op w)

/-- The signals that a call of the signal API is given. -/
def ServerOp.signals (op : ServerOp) : List Signal :=
  match op with
  | ServerOp.setSignals vecSignal => vecSignal
  | ServerOp.pushSignal s => [s]

/-- The type invariant of the specification: the type is exactly one of the
defined kinds, discrete or analog. -/
def oneHot (type : Nat) : Prop :=
  type = ESignalType.discret ∨ type = ESignalType.analog

instance oneHot.decidable (type : Nat) : Decidable (oneHot type) :=
  inferInstanceAs (Decidable (_ ∨ _))

/-! ## Concrete inputs used in the worked examples -/

/-- The table of scenario S1 at time 0: `1:(discrete,0.0)`, `2:(analog,1.5)`. -/
def tableS1 : Table :=
  [(1, { id := 1, type := ESignalType.discret, value := 0, ts := 0 }),
   (2, { id := 2, type := ESignalType.analog, value := 0x3FF8000000000000, ts := 0 })]

/-- The table of scenario S3: as S1, with both signals stored at time 5. -/
def tableS3 : Table :=
  [(1, { id := 1, type := ESignalType.discret, value := 0, ts := 5 }),
   (2, { id := 2, type := ESignalType.analog, value := 0x3FF8000000000000, ts := 5 })]

/-- The stale push of scenario S3: `(1, discrete, 0.0, t=3)`. -/
def staleS3 : Signal := { id := 1, type := ESignalType.discret, value := 0, ts := 3 }

/-- The update of scenarios S1 and S2: `(1, discrete, 1.0, t=1)`. -/
def updateS1 : Signal :=
  { id := 1, type := ESignalType.discret, value := 0x3FF0000000000000, ts := 1 }

/-- The list of scenario S4: `(7, analog, 2.2, t=0)`. -/
def listS4 : List Signal :=
  [{ id := 7, type := ESignalType.analog, value := 0x400199999999999A, ts := 0 }]

/-- An open session that subscribed with filter 2 (scenario S2). -/
def sessionS2 : Session := { m_req_type := 2 }

/-- The header-only data frame: signature, version 1, type 2, length 0. -/
def emptyDataFrame : Frame := [0xAA, 0x55, 1, 2, 0, 0, 0, 0]

/-- A store with one live session, of handle 0, freshly constructed. -/
def oneSession : Sessions := fun h => if h = 0 then some {} else none

/-- The analog signal of id 2 with value 1.5, as an update at time 1. -/
def updateAnalog2 : Signal := { id := 2, type := 2, value := 0x3FF8000000000000, ts := 1 }

/-- A batch of 330,382,100 copies of the update of scenario S1: its payload has
`13 * 330382100 = 2 ^ 32 + 4` bytes. -/
def hugeBatch : List Signal := List.replicate 330382100 updateS1

/-- A data payload of 14 bytes: the record `(2, analog, 1.5)` and one more byte. -/
def payload14 : List Nat := [0, 0, 0, 2, 2, 0x3F, 0xF8, 0, 0, 0, 0, 0, 0, 0xFF]

/-- A session that has just been started: the read of its first header is
outstanding. -/
def startedSession : Session := async_read_header {}

/-- A subscribe header with signature `0x0000` (scenario S6). -/
def headerS6 : List Nat := [0, 0, 1, 1, 0, 0, 0, 1]

/-- A subscribe header announcing a payload of exactly `10 * 2 ^ 20` bytes. -/
def headerMax : List Nat := [0xAA, 0x55, 1, 1, 0x00, 0xA0, 0x00, 0x00]

/-- A subscribe header announcing a payload of `10 * 2 ^ 20 + 1` bytes. -/
def headerOver : List Nat := [0xAA, 0x55, 1, 1, 0x00, 0xA0, 0x00, 0x01]

/-- A header of a data frame (type 2, not a subscribe) with an empty payload. -/
def headerData0 : List Nat := [0xAA, 0x55, 1, 2, 0, 0, 0, 0]

/-- A well-formed subscribe header with a payload of one byte. -/
def headerSubscribe : List Nat := [0xAA, 0x55, 1, 1, 0, 0, 0, 1]

/-- The started session after it has received the header `headerData0`. -/
def afterData0 : Session :=
  (sessionStep 0 (SessionEvent.readDone false headerData0) ({}, startedSession)).2

/-- The started session after a subscribe with filter 3. -/
def subscribed3 : Session := { startedSession with m_req_type := 3, m_cnt_read_packet := 1 }

/-- A store with two live sessions, of handles 0 and 2. -/
def twoSessions : Sessions :=
  fun h => if h = 0 then some sessionS2 else if h = 2 then some subscribed3 else none

/-- A signal whose type has both bits set, `discret | analog`. -/
def signalBoth : Signal := { id := 1, type := 3, value := 0, ts := 0 }

/-- A signal built by the default constructor of `Signal` but for its id: type
`unknown`. -/
def signalUnknown : Signal := { id := 2, type := ESignalType.unknown, value := 0, ts := 0 }

/-- A batch of 806,597 copies of the update of scenario S1: its payload has
`13 * 806597 = 10 * 2 ^ 20 + 1` bytes. -/
def overBatch : List Signal := List.replicate 806597 updateS1

/-- An acceptor with one accept outstanding, as after `Server::Start`. -/
def acceptorStarted : Acceptor := do_accept {}

/-- A store with two live sessions: handle 0 has subscribed with filter 2,
handle 1 has been accepted and started and has not subscribed yet. -/
def acceptedStore : Sessions :=
  fun h => if h = 0 then some sessionS2 else if h = 1 then some startedSession else none

/-! ## Lemmas on the signal table -/

theorem Table.find_replace_same (T : Table) (k : Nat) (v a : Signal)
    (h : Table.find T k = some a) : Table.find (Table.replace T k v) k = some v := by
  induction T with
  | nil => simp [Table.find] at h
  | cons p rest ih =>
    obtain ⟨k', w⟩ := p
    by_cases hk : k' = k
    · simp [Table.replace, Table.find, hk]
    · simp only [Table.find, hk, if_false] at h
      simp [Table.replace, Table.find, hk, ih h]

theorem Table.find_replace_other (T : Table) (k k' : Nat) (v : Signal) (h : k' ≠ k) :
    Table.find (Table.replace T k v) k' = Table.find T k' := by
  induction T with
  | nil => simp [Table.replace, Table.find]
  | cons p rest ih =>
    obtain ⟨k0, w⟩ := p
    by_cases hk : k0 = k
    · have hk' : ¬ k = k' := fun e => h e.symm
      have hk0 : ¬ k0 = k' := by rw [hk]; exact hk'
      simp [Table.replace, Table.find, hk, hk', ih]
    · by_cases hk2 : k0 = k'
      · subst hk2
        simp [Table.replace, Table.find, hk]
      · simp [Table.replace, Table.find, hk, hk2, ih]

theorem Table.find_append (T U : Table) (k : Nat) :
    Table.find (T ++ U) k = (Table.find T k).or (Table.find U k) := by
  induction T with
  | nil => simp [Table.find]
  | cons p rest ih =>
    obtain ⟨k0, w⟩ := p
    by_cases hk : k0 = k
    · simp [Table.find, hk]
    · simp [Table.find, hk, ih]

theorem Table.find_assign_same (T : Table) (k : Nat) (v : Signal) :
    Table.find (Table.assign T k v) k = some v := by
  unfold Table.assign
  cases h : Table.find T k with
  | some a => simpa using Table.find_replace_same T k v a h
  | none => simp [Table.find_append, h, Table.find]

theorem Table.find_assign_other (T : Table) (k k' : Nat) (v : Signal) (h : k' ≠ k) :
    Table.find (Table.assign T k v) k' = Table.find T k' := by
  unfold Table.assign
  cases hf : Table.find T k with
  | some a => simpa using Table.find_replace_other T k k' v h
  | none =>
    have hk : ¬ k = k' := fun e => h e.symm
    simp [Table.find_append, Table.find, hk]

theorem Table.keys_replace (T : Table) (k : Nat) (v : Signal) :
    (Table.replace T k v).keys = T.keys := by
  induction T with
  | nil => rfl
  | cons p rest ih =>
    obtain ⟨k0, w⟩ := p
    simp only [Table.keys] at ih
    by_cases hk : k0 = k
    · simp [Table.replace, Table.keys, hk, ih]
    · simp [Table.replace, Table.keys, hk, ih]

theorem Table.find_eq_none_iff (T : Table) (k : Nat) :
    Table.find T k = none ↔ k ∉ T.keys := by
  induction T with
  | nil => simp [Table.find, Table.keys]
  | cons p rest ih =>
    obtain ⟨k0, w⟩ := p
    simp only [Table.keys] at ih
    by_cases hk : k0 = k
    · simp [Table.find, Table.keys, hk]
    · have hk' : ¬ k = k0 := fun e => hk e.symm
      simp [Table.find, Table.keys, hk, hk', ih]

theorem Table.keys_assign (T : Table) (k : Nat) (v : Signal) :
    (Table.assign T k v).keys = if k ∈ T.keys then T.keys else T.keys ++ [k] := by
  unfold Table.assign
  cases hf : Table.find T k with
  | some a =>
    have hin : k ∈ T.keys := by
      by_contra hn
      rw [(Table.find_eq_none_iff T k).mpr hn] at hf
      cases hf
    simp [hin, Table.keys_replace]
  | none =>
    have hn : k ∉ T.keys := (Table.find_eq_none_iff T k).mp hf
    rw [if_neg hn]
    simp [Table.keys]

theorem Table.WF_assign (T : Table) (k : Nat) (v : Signal) (h : T.WF) :
    (Table.assign T k v).WF := by
  unfold Table.WF at *
  rw [Table.keys_assign]
  by_cases hin : k ∈ T.keys
  · simpa [hin] using h
  · simp only [hin, if_false]
    exact List.Nodup.append h (List.nodup_singleton k) (by simpa using hin)

theorem Table.find_mem (T : Table) (k : Nat) (a : Signal) (h : Table.find T k = some a) :
    (k, a) ∈ T := by
  induction T with
  | nil => simp [Table.find] at h
  | cons p rest ih =>
    obtain ⟨k0, w⟩ := p
    by_cases hk : k0 = k
    · simp only [Table.find, hk, if_true, Option.some.injEq] at h
      simp [hk, h]
    · simp only [Table.find, hk, if_false] at h
      exact List.mem_cons_of_mem _ (ih h)

/-! ## Lemmas on `PushSignal` -/

theorem PushSignal_admitted_iff (s : Signal) (srv : Server) :
    (PushSignal s srv).2 = true ↔
      ∃ stored, srv.m_state.find s.id = some stored ∧ stored.ts ≤ s.ts := by
  unfold PushSignal
  cases h : srv.m_state.find s.id with
  | none => simp
  | some stored =>
    by_cases hts : stored.ts ≤ s.ts
    · simp [hts]
    · simp [hts]

theorem PushSignal_state (s : Signal) (srv : Server) :
    (PushSignal s srv).1 =
      if (PushSignal s srv).2 then
        { srv with m_state := srv.m_state.assign s.id s, m_queue := srv.m_queue ++ [s] }
      else srv := by
  unfold PushSignal
  cases h : srv.m_state.find s.id with
  | none => simp
  | some stored =>
    by_cases hts : stored.ts ≤ s.ts
    · simp [hts]
    · simp [hts]

theorem PushSignal_rejected (s : Signal) (srv : Server) (h : (PushSignal s srv).2 = false) :
    (PushSignal s srv).1 = srv := by
  rw [PushSignal_state, h]; rfl

theorem PushSignal_find_mono (p : Signal) (srv : Server) (id : Nat) (a : Signal)
    (h : srv.m_state.find id = some a) :
    ∃ b, (PushSignal p srv).1.m_state.find id = some b ∧ a.ts ≤ b.ts ∧
      (b = a ∨ (b = p ∧ (PushSignal p srv).2 = true)) := by
  cases hadm : (PushSignal p srv).2 with
  | false =>
    rw [PushSignal_rejected p srv hadm]
    exact ⟨a, h, le_refl _, Or.inl rfl⟩
  | true =>
    rw [PushSignal_state, hadm]
    simp only [if_true]
    obtain ⟨stored, hst, hts⟩ := (PushSignal_admitted_iff p srv).mp hadm
    by_cases hid : id = p.id
    · subst hid
      rw [h] at hst
      cases hst
      exact ⟨p, Table.find_assign_same _ _ _, hts, Or.inr ⟨rfl, trivial⟩⟩
    · exact ⟨a, by rw [Table.find_assign_other _ _ _ _ hid]; exact h, le_refl _, Or.inl rfl⟩

theorem pushAll_append (ps qs : List Signal) (srv : Server) :
    pushAll (ps ++ qs) srv = pushAll qs (pushAll ps srv) := by
  induction ps generalizing srv with
  | nil => rfl
  | cons p rest ih => simp [pushAll, ih]

theorem admittedOf_cons (p : Signal) (rest : List Signal) (srv : Server) :
    admittedOf (p :: rest) srv =
      if (PushSignal p srv).2 then p :: admittedOf rest (PushSignal p srv).1
      else admittedOf rest (PushSignal p srv).1 := rfl

theorem pushAll_find_mono (ps : List Signal) (srv : Server) (id : Nat) (a : Signal)
    (h : srv.m_state.find id = some a) :
    ∃ b, (pushAll ps srv).m_state.find id = some b ∧ a.ts ≤ b.ts ∧
      (b = a ∨ b ∈ admittedOf ps srv) := by
  induction ps generalizing srv a with
  | nil => exact ⟨a, h, le_refl _, Or.inl rfl⟩
  | cons p rest ih =>
    obtain ⟨b, hb, hab, hor⟩ := PushSignal_find_mono p srv id a h
    obtain ⟨c, hc, hbc, hor2⟩ := ih (PushSignal p srv).1 b hb
    refine ⟨c, hc, le_trans hab hbc, ?_⟩
    rw [admittedOf_cons]
    rcases hor2 with hcb | hmem
    · rcases hor with hba | ⟨hbp, hadm⟩
      · left; rw [hcb, hba]
      · right; rw [hadm, hcb, hbp]; simp
    · right
      cases hadm : (PushSignal p srv).2 with
      | false => simpa using hmem
      | true => simp [hmem]

theorem pushAll_stored_highest (ps : List Signal) (srv : Server) (p : Signal)
    (hp : p ∈ admittedOf ps srv) :
    ∃ b, (pushAll ps srv).m_state.find p.id = some b ∧ b ∈ admittedOf ps srv ∧ p.ts ≤ b.ts := by
  induction ps generalizing srv with
  | nil => simp [admittedOf] at hp
  | cons q rest ih =>
    rw [admittedOf_cons] at hp ⊢
    cases hadm : (PushSignal q srv).2 with
    | false =>
      rw [hadm] at hp
      simp only [Bool.false_eq_true, if_false] at hp ⊢
      exact ih _ hp
    | true =>
      rw [hadm] at hp
      simp only [if_true, List.mem_cons] at hp ⊢
      rcases hp with hpq | hmem
      · subst hpq
        have hfind : (PushSignal p srv).1.m_state.find p.id = some p := by
          rw [PushSignal_state, hadm]
          exact Table.find_assign_same _ _ _
        obtain ⟨c, hc, hpc, hor⟩ := pushAll_find_mono rest _ p.id p hfind
        refine ⟨c, hc, ?_, hpc⟩
        rcases hor with hcp | hm
        · left; exact hcp
        · right; exact hm
      · obtain ⟨b, hb, hbm, hle⟩ := ih _ hmem
        exact ⟨b, hb, Or.inr hbm, hle⟩

/-! ## The claims on `PushSignal` -/

/-- C1 (as stated, refuted): with an empty table the id of the pushed signal is
absent, so the stated condition for admission holds, and `PushSignal` returns
`false`. -/
theorem C1_absent_id_not_admitted :
    ¬ ((PushSignal updateS1 { m_state := [] }).2 = true ↔
        (Table.find [] updateS1.id = none ∨
          ∃ stored, Table.find [] updateS1.id = some stored ∧ stored.ts ≤ updateS1.ts)) := by
  intro h
  have hadm := h.mpr (Or.inl rfl)
  revert hadm
  decide

/-- C1 (amended): `PushSignal(s)` returns `true` if and only if the table has an
entry for `s.id` whose timestamp is at most `s.ts`; a push for an id that is
absent from the table returns `false` and changes nothing. -/
theorem C1_PushSignal_admits_iff (s : Signal) (srv : Server) :
    ((PushSignal s srv).2 = true ↔
        ∃ stored, srv.m_state.find s.id = some stored ∧ stored.ts ≤ s.ts) ∧
      (srv.m_state.find s.id = none → PushSignal s srv = (srv, false)) := by
  refine ⟨PushSignal_admitted_iff s srv, ?_⟩
  intro hnone
  have hrej : (PushSignal s srv).2 = false := by
    cases hadm : (PushSignal s srv).2 with
    | false => rfl
    | true =>
      obtain ⟨stored, hst, _⟩ := (PushSignal_admitted_iff s srv).mp hadm
      rw [hnone] at hst
      cases hst
  exact Prod.ext (PushSignal_rejected s srv hrej) hrej

/-- A use of C1 (amended) on the table of scenario S1: the push of scenario S1 is
admitted, and the same push on an empty table is refused. -/
theorem C1_PushSignal_admits_iff_witness :
    (PushSignal updateS1 { m_state := tableS1 }).2 = true ∧
      PushSignal updateS1 { m_state := [] } = ({ m_state := [] }, false) :=
  ⟨(C1_PushSignal_admits_iff updateS1 { m_state := tableS1 }).1.mpr
      ⟨{ id := 1, type := ESignalType.discret, value := 0, ts := 0 }, by decide, by decide⟩,
    (C1_PushSignal_admits_iff updateS1 { m_state := [] }).2 (by decide)⟩

/-- C2: when the table holds an entry for `s.id` with a timestamp strictly
greater than `s.ts`, `PushSignal(s)` returns `false` and leaves the table, the
update queue and the registry as they were. -/
theorem C2_stale_push_dropped (s stored : Signal) (srv : Server)
    (hfind : srv.m_state.find s.id = some stored) (hstale : s.ts < stored.ts) :
    PushSignal s srv = (srv, false) := by
  have hrej : (PushSignal s srv).2 = false := by
    cases hadm : (PushSignal s srv).2 with
    | false => rfl
    | true =>
      obtain ⟨st, hst, hts⟩ := (PushSignal_admitted_iff s srv).mp hadm
      rw [hfind] at hst
      cases hst
      omega
  exact Prod.ext (PushSignal_rejected s srv hrej) hrej

/-- Scenario S3 for C2: id 1 stored at `t=5`, push `(1, discrete, 0.0, t=3)`. -/
theorem C2_stale_push_dropped_witness :
    PushSignal staleS3 { m_state := tableS3 } = ({ m_state := tableS3 }, false) ∧
      ({ m_state := tableS3 } : Server).m_state.find 1 =
        some { id := 1, type := ESignalType.discret, value := 0, ts := 5 } :=
  ⟨C2_stale_push_dropped staleS3 { id := 1, type := ESignalType.discret, value := 0, ts := 5 }
      { m_state := tableS3 } (by decide) (by decide), by decide⟩

/-- C3: in a run of `PushSignal` calls, for every id the timestamp stored after
a prefix of the run is at most the timestamp stored after any longer prefix (the
entry never disappears), and after every run the signal stored for the id of an
admitted push is itself an admitted push whose timestamp is at least that of
every push admitted for this id. -/
theorem C3_monotonic_admission (srv : Server) (ps qs : List Signal) :
    (∀ id a, (pushAll ps srv).m_state.find id = some a →
        ∃ b, (pushAll (ps ++ qs) srv).m_state.find id = some b ∧ a.ts ≤ b.ts) ∧
      (∀ p, p ∈ admittedOf ps srv →
        ∃ b, (pushAll ps srv).m_state.find p.id = some b ∧ b ∈ admittedOf ps srv ∧
          p.ts ≤ b.ts) := by
  constructor
  · intro id a h
    rw [pushAll_append]
    obtain ⟨b, hb, hab, _⟩ := pushAll_find_mono qs (pushAll ps srv) id a h
    exact ⟨b, hb, hab⟩
  · intro p hp
    exact pushAll_stored_highest ps srv p hp

/-- A use of C3 on the table of scenario S3: after the stale push and the push
of a newer value for id 1, the stored timestamp is at least 5, and it is at
least the timestamp 7 of the admitted push. -/
theorem C3_monotonic_admission_witness :
    (∃ b, (pushAll ([staleS3] ++ [{ staleS3 with ts := 7 }])
        { m_state := tableS3 }).m_state.find 1 = some b ∧ (5 : Int) ≤ b.ts) ∧
      (∃ b, (pushAll [staleS3, { staleS3 with ts := 7 }]
        { m_state := tableS3 }).m_state.find 1 = some b ∧
          b ∈ admittedOf [staleS3, { staleS3 with ts := 7 }] { m_state := tableS3 } ∧
          (7 : Int) ≤ b.ts) :=
  ⟨(C3_monotonic_admission { m_state := tableS3 } [staleS3] [{ staleS3 with ts := 7 }]).1 1
      { id := 1, type := ESignalType.discret, value := 0, ts := 5 } (by decide),
    (C3_monotonic_admission { m_state := tableS3 } [staleS3, { staleS3 with ts := 7 }] []).2
      { staleS3 with ts := 7 } (by decide)⟩

/-- C4: when `PushSignal(s)` returns `true` the table maps `s.id` to `s`, the
entry of every other id and the key set are unchanged and the queue is the
previous queue with `s` appended at the tail; when it returns `false` the queue
is unchanged. -/
theorem C4_PushSignal_frame (s : Signal) (srv : Server) :
    ((PushSignal s srv).2 = true →
        (PushSignal s srv).1.m_state.find s.id = some s ∧
        (∀ k, k ≠ s.id → (PushSignal s srv).1.m_state.find k = srv.m_state.find k) ∧
        (PushSignal s srv).1.m_state.keys = srv.m_state.keys ∧
        (PushSignal s srv).1.m_queue = srv.m_queue ++ [s]) ∧
      ((PushSignal s srv).2 = false → (PushSignal s srv).1.m_queue = srv.m_queue) := by
  constructor
  · intro hadm
    obtain ⟨stored, hst, _⟩ := (PushSignal_admitted_iff s srv).mp hadm
    have hin : s.id ∈ srv.m_state.keys := by
      by_contra hn
      rw [(Table.find_eq_none_iff _ _).mpr hn] at hst
      cases hst
    have hst1 : (PushSignal s srv).1 =
        { srv with m_state := srv.m_state.assign s.id s, m_queue := srv.m_queue ++ [s] } := by
      rw [PushSignal_state, hadm]; rfl
    rw [hst1]
    refine ⟨Table.find_assign_same _ _ _, ?_, ?_, rfl⟩
    · intro k hk
      exact Table.find_assign_other _ _ _ _ hk
    · show (srv.m_state.assign s.id s).keys = srv.m_state.keys
      rw [Table.keys_assign, if_pos hin]
  · intro hrej
    rw [PushSignal_rejected s srv hrej]

/-- Scenario S1 for C4: the admitted push of `(1, discrete, 1.0, t=1)` is stored
and queued behind the signal already waiting; the stale push queues nothing. -/
theorem C4_PushSignal_frame_witness :
    ((PushSignal updateS1 { m_state := tableS1, m_queue := [staleS3] }).1.m_state.find 1
        = some updateS1 ∧
      (∀ k, k ≠ updateS1.id →
        (PushSignal updateS1 { m_state := tableS1, m_queue := [staleS3] }).1.m_state.find k
          = Table.find tableS1 k) ∧
      (PushSignal updateS1 { m_state := tableS1, m_queue := [staleS3] }).1.m_state.keys
        = Table.keys tableS1 ∧
      (PushSignal updateS1 { m_state := tableS1, m_queue := [staleS3] }).1.m_queue
        = [staleS3] ++ [updateS1]) ∧
      (PushSignal staleS3 { m_state := tableS3, m_queue := [updateS1] }).1.m_queue
        = [updateS1] :=
  ⟨(C4_PushSignal_frame updateS1 { m_state := tableS1, m_queue := [staleS3] }).1 (by decide),
    (C4_PushSignal_frame staleS3 { m_state := tableS3, m_queue := [updateS1] }).2 (by decide)⟩

/-! ## The claims on `GetSnapshot` -/

theorem snapshotLoop_eq (type : Nat) (T : Table) (out : List Signal) :
    snapshotLoop type T out =
      out ++ (T.filter (fun p => typeMatches p.2.type type)).map Prod.snd := by
  induction T generalizing out with
  | nil => simp [snapshotLoop]
  | cons p rest ih =>
    by_cases hp : typeMatches p.2.type type = true
    · simp [snapshotLoop, hp, ih]
    · simp [snapshotLoop, hp, ih]

theorem typeMatches_iff (type filter : Nat) :
    typeMatches type filter = true ↔ type &&& filter ≠ 0 := by
  simp [typeMatches]

theorem GetSnapshot_eq (f : Nat) (srv : Server) :
    (GetSnapshot f srv).2 =
      (srv.m_state.filter (fun p => typeMatches p.2.type f)).map Prod.snd := by
  simp [GetSnapshot, snapshotLoop_eq]

theorem mem_GetSnapshot (f : Nat) (srv : Server) (x : Signal) :
    x ∈ (GetSnapshot f srv).2 ↔ (∃ k, (k, x) ∈ srv.m_state) ∧ x.type &&& f ≠ 0 := by
  rw [GetSnapshot_eq]
  simp only [List.mem_map, List.mem_filter, typeMatches_iff]
  constructor
  · rintro ⟨⟨k, y⟩, ⟨hmem, hpass⟩, rfl⟩
    exact ⟨⟨k, hmem⟩, hpass⟩
  · rintro ⟨⟨k, hmem⟩, hpass⟩
    exact ⟨(k, x), ⟨hmem, hpass⟩, rfl⟩

/-- C5: `GetSnapshot(f)` leaves the server unchanged and returns one record for
each entry of the table whose type has a bit in common with `f`, in iteration
order, and nothing else (with unique keys no key yields two records); so filter
3 returns every discrete and every analog signal, filter 0 returns the empty
list, and a signal of type unknown is never returned. -/
theorem C5_GetSnapshot (f : Nat) (srv : Server) :
    (GetSnapshot f srv).1 = srv ∧
      (GetSnapshot f srv).2 =
        (srv.m_state.filter (fun p => typeMatches p.2.type f)).map Prod.snd ∧
      (srv.m_state.WF →
        ((srv.m_state.filter (fun p => typeMatches p.2.type f)).map Prod.fst).Nodup) ∧
      (∀ x, x ∈ (GetSnapshot f srv).2 ↔
        (∃ k, (k, x) ∈ srv.m_state) ∧ x.type &&& f ≠ 0) ∧
      (∀ k x, (k, x) ∈ srv.m_state →
        (x.type = ESignalType.discret ∨ x.type = ESignalType.analog) →
        x ∈ (GetSnapshot 3 srv).2) ∧
      (GetSnapshot 0 srv).2 = [] ∧
      (∀ x, x ∈ (GetSnapshot f srv).2 → x.type ≠ ESignalType.unknown) := by
  refine ⟨rfl, GetSnapshot_eq f srv, ?_, mem_GetSnapshot f srv, ?_, ?_, ?_⟩
  · intro hwf
    exact List.Nodup.sublist ((List.filter_sublist _).map Prod.fst) hwf
  · intro k x hmem hty
    refine (mem_GetSnapshot 3 srv x).mpr ⟨⟨k, hmem⟩, ?_⟩
    rcases hty with h | h <;> rw [h] <;> decide
  · rw [GetSnapshot_eq]
    simp [typeMatches]
  · intro x hx hzero
    have hne := ((mem_GetSnapshot f srv x).mp hx).2
    rw [hzero] at hne
    exact hne (Nat.zero_and f)

/-- Scenario S1 and S2 for C5: on the table `1:(discrete,0.0)`, `2:(analog,1.5)`
filter 3 returns both signals, filter 2 only the analog one, filter 0 none. -/
theorem C5_GetSnapshot_witness :
    (GetSnapshot 3 { m_state := tableS1 }).2 =
        [{ id := 1, type := 1, value := 0, ts := 0 },
         { id := 2, type := 2, value := 0x3FF8000000000000, ts := 0 }] ∧
      (GetSnapshot 2 { m_state := tableS1 }).2 =
        [{ id := 2, type := 2, value := 0x3FF8000000000000, ts := 0 }] ∧
      ((List.filter (fun p => typeMatches p.2.type 3) tableS1).map Prod.fst).Nodup ∧
      (GetSnapshot 0 { m_state := tableS1 }).2 = [] :=
  ⟨by decide, by decide,
    (C5_GetSnapshot 3 { m_state := tableS1 }).2.2.1 (by decide),
    (C5_GetSnapshot 3 { m_state := tableS1 }).2.2.2.2.2.1⟩

/-! ## The claims on `DeliverUpdates` and `handle_subscribe` -/

theorem memBytes_length (n x : Nat) : (memBytes n x).length = n := by
  simp [memBytes]

theorem recordBytes_length (e : Signal) : (recordBytes e).length = 13 := by
  simp [recordBytes, memBytes_length]

theorem deliverLoop_eq (F : Nat) (updates : List Signal) (payload : List Nat) :
    deliverLoop F updates payload =
      payload ++ ((updates.filter (fun e => typeMatches e.type F)).map recordBytes).flatten := by
  induction updates generalizing payload with
  | nil => simp [deliverLoop]
  | cons e rest ih =>
    by_cases he : typeMatches e.type F = true
    · simp [deliverLoop, he, ih]
    · simp [deliverLoop, he, ih]

theorem flatten_recordBytes_length (l : List Signal) :
    ((l.map recordBytes).flatten).length = 13 * l.length := by
  induction l with
  | nil => rfl
  | cons e rest ih =>
    simp only [List.map_cons, List.flatten_cons, List.length_append, List.length_cons, ih,
      recordBytes_length]
    omega

theorem buildFrame_eq (F : Nat) (updates : List Signal) :
    buildFrame F updates =
      dataHeader (13 * (updates.filter (fun e => typeMatches e.type F)).length) ++
        ((updates.filter (fun e => typeMatches e.type F)).map recordBytes).flatten := by
  simp only [buildFrame, deliverLoop_eq, List.nil_append, flatten_recordBytes_length]

theorem deliverTask_que_write (updates : List Signal) (s : Session)
    (hopen : s.m_socket_open = true) :
    (deliverTask updates s).m_que_write = s.m_que_write ++ [buildFrame s.m_req_type updates] := by
  unfold deliverTask
  simp only [hopen, Bool.not_true, Bool.false_eq_true, if_false]
  by_cases hstart : (s.m_que_write.isEmpty && !s.m_writing) = true
  · simp only [hstart, if_true]
    unfold do_write
    simp only [hopen, Bool.not_true, Bool.false_eq_true, if_false]
    cases hq : s.m_que_write with
    | nil => simp
    | cons f rest => simp
  · simp only [hstart]
    simp

/-- C6: the handler of `DeliverUpdates` on an open session with filter `F`
appends one frame whose payload is the concatenation of the 13-byte records of
exactly the updates of the batch with `type & F ≠ 0`, in the order of the batch;
an update with `type & F = 0` is not among them. -/
theorem C6_filter_soundness (updates : List Signal) (s : Session)
    (hopen : s.m_socket_open = true) :
    (deliverTask updates s).m_que_write =
        s.m_que_write ++
          [dataHeader (13 * (updates.filter (fun e => typeMatches e.type s.m_req_type)).length)
            ++ ((updates.filter (fun e => typeMatches e.type s.m_req_type)).map
                  recordBytes).flatten] ∧
      deliverLoop s.m_req_type updates [] =
        ((updates.filter (fun e => typeMatches e.type s.m_req_type)).map recordBytes).flatten ∧
      (updates.filter (fun e => typeMatches e.type s.m_req_type)).Sublist updates ∧
      (∀ e, e ∈ updates.filter (fun e => typeMatches e.type s.m_req_type) ↔
        e ∈ updates ∧ e.type &&& s.m_req_type ≠ 0) ∧
      (∀ e, e.type &&& s.m_req_type = 0 →
        e ∉ updates.filter (fun e => typeMatches e.type s.m_req_type)) := by
  refine ⟨?_, ?_, List.filter_sublist _, ?_, ?_⟩
  · rw [deliverTask_que_write updates s hopen, buildFrame_eq]
  · rw [deliverLoop_eq]; rfl
  · intro e
    simp only [List.mem_filter, typeMatches_iff]
  · intro e hz hmem
    have := (List.mem_filter.mp hmem).2
    rw [typeMatches_iff] at this
    exact this hz

/-- A use of C6: an open session with filter 2 and the batch of the discrete
update of id 1 followed by the analog signal of id 2; the frame carries the
record of id 2 only. -/
theorem C6_filter_soundness_witness :
    (deliverTask [updateS1, { id := 2, type := 2, value := 0x3FF8000000000000, ts := 1 }]
        sessionS2).m_que_write =
      [[0xAA, 0x55, 1, 2, 0, 0, 0, 13, 0, 0, 0, 2, 2, 0x3F, 0xF8, 0, 0, 0, 0, 0, 0]] := by
  have h := (C6_filter_soundness
    [updateS1, { id := 2, type := 2, value := 0x3FF8000000000000, ts := 1 }] sessionS2 rfl).1
  rw [h]
  decide

/-- C7 (the code at the failing input): the session subscribed with filter 2 is
delivered the batch holding only the discrete update `(1, discrete, 1.0)`; no
update survives the filter, and the handler appends a header-only frame to the
write queue and starts its write. -/
theorem C7_frame_without_survivor :
    List.filter (fun e => typeMatches e.type sessionS2.m_req_type) [updateS1] = [] ∧
      (deliverTask [updateS1] sessionS2).m_que_write = [emptyDataFrame] ∧
      (deliverTask [updateS1] sessionS2).async_writes = [emptyDataFrame] ∧
      (deliverTask [updateS1] sessionS2).m_writing = true := by
  decide

theorem filter_map_snd (F : Nat) (T : Table) :
    ((T.filter (fun p => typeMatches p.2.type F)).map Prod.snd).filter
        (fun e => typeMatches e.type F) =
      (T.filter (fun p => typeMatches p.2.type F)).map Prod.snd := by
  induction T with
  | nil => rfl
  | cons p rest ih =>
    by_cases hp : typeMatches p.2.type F = true
    · simp only [List.filter_cons, hp, if_true, List.map_cons, ih]
    · simp only [List.filter_cons, hp, if_false, ih]
      simp [ih]

/-- C8: `handle_subscribe` with a non-empty payload records the first byte as
the filter of the session, appends the session once to the registry, leaves the
table and the update queue as they were, and hands to `DeliverUpdates` exactly
the stored signals of the entries whose type passes the filter (all of them are
serialized by the posted handler); when no entry passes, nothing is posted and
no frame is queued. -/
theorem C8_snapshot_agreement (b : Nat) (rest : List Nat) (self : Nat) (srv : Server)
    (s : Session) :
    (handle_subscribe (b :: rest) self srv s).2.m_req_type = b ∧
      (handle_subscribe (b :: rest) self srv s).1.m_subscribers = srv.m_subscribers ++ [self] ∧
      (handle_subscribe (b :: rest) self srv s).1.m_subscribers.count self =
        srv.m_subscribers.count self + 1 ∧
      (handle_subscribe (b :: rest) self srv s).1.m_state = srv.m_state ∧
      (handle_subscribe (b :: rest) self srv s).1.m_queue = srv.m_queue ∧
      (handle_subscribe (b :: rest) self srv s).2.m_que_write = s.m_que_write ∧
      ((srv.m_state.filter (fun p => typeMatches p.2.type b)).map Prod.snd ≠ [] →
        (handle_subscribe (b :: rest) self srv s).2.strand =
          s.strand ++ [StrandTask.deliver
            ((srv.m_state.filter (fun p => typeMatches p.2.type b)).map Prod.snd)]) ∧
      ((srv.m_state.filter (fun p => typeMatches p.2.type b)).map Prod.snd = [] →
        (handle_subscribe (b :: rest) self srv s).2.strand = s.strand) ∧
      (∀ x, x ∈ (srv.m_state.filter (fun p => typeMatches p.2.type b)).map Prod.snd ↔
        (∃ k, (k, x) ∈ srv.m_state) ∧ x.type &&& b ≠ 0) ∧
      deliverLoop b ((srv.m_state.filter (fun p => typeMatches p.2.type b)).map Prod.snd) [] =
        (((srv.m_state.filter (fun p => typeMatches p.2.type b)).map Prod.snd).map
          recordBytes).flatten := by
  have hsnap : (GetSnapshot b (RegisterSession self srv)).2 =
      (srv.m_state.filter (fun p => typeMatches p.2.type b)).map Prod.snd := by
    rw [GetSnapshot_eq]; rfl
  have hmem := mem_GetSnapshot b srv
  rw [GetSnapshot_eq] at hmem
  have hval : handle_subscribe (b :: rest) self srv s =
      if !((srv.m_state.filter (fun p => typeMatches p.2.type b)).map Prod.snd).isEmpty then
        (RegisterSession self srv,
          DeliverUpdates ((srv.m_state.filter (fun p => typeMatches p.2.type b)).map Prod.snd)
            { s with m_req_type := b })
      else (RegisterSession self srv, { s with m_req_type := b }) := by
    simp only [handle_subscribe, hsnap]
  have hloop := deliverLoop_eq b
    ((srv.m_state.filter (fun p => typeMatches p.2.type b)).map Prod.snd) []
  rw [filter_map_snd, List.nil_append] at hloop
  rw [hval]
  cases hl : (srv.m_state.filter (fun p => typeMatches p.2.type b)).map Prod.snd with
  | nil =>
    rw [hl] at hmem hloop
    refine ⟨?_, ?_, ?_, ?_, ?_, ?_, ?_, ?_, hmem, hloop⟩ <;>
      simp [RegisterSession]
  | cons x xs =>
    rw [hl] at hmem hloop
    refine ⟨?_, ?_, ?_, ?_, ?_, ?_, ?_, ?_, hmem, hloop⟩ <;>
      simp [RegisterSession, DeliverUpdates]

/-- Scenarios S1 and S2 for C8: on the table `1:(discrete,0.0)`, `2:(analog,1.5)`
a subscribe with filter 3 posts the delivery of both stored signals, a subscribe
with filter 2 the delivery of `(2, analog, 1.5)` only. -/
theorem C8_snapshot_agreement_witness :
    (handle_subscribe [3] 0 { m_state := tableS1 } {}).2.strand =
        [] ++ [StrandTask.deliver
          [{ id := 1, type := 1, value := 0, ts := 0 },
           { id := 2, type := 2, value := 0x3FF8000000000000, ts := 0 }]] ∧
      (handle_subscribe [2] 0 { m_state := tableS1 } {}).2.strand =
        [] ++ [StrandTask.deliver
          [{ id := 2, type := 2, value := 0x3FF8000000000000, ts := 0 }]] :=
  ⟨(C8_snapshot_agreement 3 [] 0 { m_state := tableS1 } {}).2.2.2.2.2.2.1 (by decide),
    (C8_snapshot_agreement 2 [] 0 { m_state := tableS1 } {}).2.2.2.2.2.2.1 (by decide)⟩

/-! ## The claims on `SetSignals` -/

theorem setLoop_find (X : List Signal) (T : Table) (k : Nat) :
    Table.find (setLoop X T) k =
      ((X.filter (fun x => decide (x.id = k))).getLast?).or (Table.find T k) := by
  induction X generalizing T with
  | nil => simp [setLoop]
  | cons s rest ih =>
    rw [setLoop, ih]
    by_cases hk : s.id = k
    · have hcons : (s :: rest).filter (fun x => decide (x.id = k)) =
          [s] ++ rest.filter (fun x => decide (x.id = k)) := by
        simp [List.filter_cons, hk]
      rw [hcons, List.getLast?_append, ← hk, Table.find_assign_same]
      cases (rest.filter (fun x => decide (x.id = s.id))).getLast? <;> simp
    · have hcons : (s :: rest).filter (fun x => decide (x.id = k)) =
          rest.filter (fun x => decide (x.id = k)) := by
        simp [List.filter_cons, hk]
      rw [hcons, Table.find_assign_other _ _ _ _ (fun e => hk e.symm)]

theorem setLoop_WF (X : List Signal) (T : Table) (h : T.WF) : (setLoop X T).WF := by
  induction X generalizing T with
  | nil => exact h
  | cons s rest ih => exact ih _ (Table.WF_assign T s.id s h)

theorem Table.mem_replace (T : Table) (k : Nat) (v : Signal) (q : Nat × Signal)
    (h : q ∈ Table.replace T k v) : q ∈ T ∨ q = (k, v) := by
  induction T with
  | nil => simp [Table.replace] at h
  | cons p rest ih =>
    obtain ⟨k0, w⟩ := p
    by_cases hk : k0 = k
    · simp only [Table.replace, hk, if_true, List.mem_cons] at h
      rcases h with h | h
      · exact Or.inr h
      · rcases ih h with h' | h'
        · exact Or.inl (List.mem_cons_of_mem _ h')
        · exact Or.inr h'
    · simp only [Table.replace, hk, if_false, List.mem_cons] at h
      rcases h with h | h
      · exact Or.inl (by rw [h]; exact List.mem_cons_self _ _)
      · rcases ih h with h' | h'
        · exact Or.inl (List.mem_cons_of_mem _ h')
        · exact Or.inr h'

theorem Table.mem_assign (T : Table) (k : Nat) (v : Signal) (q : Nat × Signal)
    (h : q ∈ Table.assign T k v) : q ∈ T ∨ q = (k, v) := by
  unfold Table.assign at h
  cases hf : Table.find T k with
  | some a =>
    rw [hf] at h
    exact Table.mem_replace T k v q h
  | none =>
    rw [hf] at h
    simpa using h

theorem setLoop_mem (X : List Signal) (T : Table) (q : Nat × Signal)
    (h : q ∈ setLoop X T) : q ∈ T ∨ (q.2 ∈ X ∧ q.2.id = q.1) := by
  induction X generalizing T with
  | nil => exact Or.inl h
  | cons s rest ih =>
    rcases ih _ h with h' | ⟨h1, h2⟩
    · rcases Table.mem_assign T s.id s q h' with h2 | h2
      · exact Or.inl h2
      · right
        rw [h2]
        exact ⟨List.mem_cons_self _ _, rfl⟩
    · exact Or.inr ⟨List.mem_cons_of_mem _ h1, h2⟩

theorem getLast?_filter_eq_none (X : List Signal) (k : Nat) :
    (X.filter (fun x => decide (x.id = k))).getLast? = none ↔ ∀ x, x ∈ X → x.id ≠ k := by
  rw [List.getLast?_eq_none_iff, List.filter_eq_nil_iff]
  simp

/-- Every entry is stored under the id of its signal, and that id is one of `X`. -/
theorem PushSignal_keeps_ids (X : List Signal) (p : Signal) (srv : Server)
    (h : ∀ q, q ∈ srv.m_state → q.2.id = q.1 ∧ ∃ x, x ∈ X ∧ x.id = q.1) :
    ∀ q, q ∈ (PushSignal p srv).1.m_state → q.2.id = q.1 ∧ ∃ x, x ∈ X ∧ x.id = q.1 := by
  cases hadm : (PushSignal p srv).2 with
  | false =>
    rw [PushSignal_rejected p srv hadm]
    exact h
  | true =>
    have hst1 : (PushSignal p srv).1 =
        { srv with m_state := srv.m_state.assign p.id p, m_queue := srv.m_queue ++ [p] } := by
      rw [PushSignal_state, hadm]; rfl
    rw [hst1]
    obtain ⟨stored, hfind, _⟩ := (PushSignal_admitted_iff p srv).mp hadm
    intro q hq
    rcases Table.mem_assign _ _ _ q hq with hq' | hq'
    · exact h q hq'
    · rw [hq']
      exact ⟨rfl, (h _ (Table.find_mem _ _ _ hfind)).2⟩

theorem pushAll_keeps_ids (X : List Signal) (ps : List Signal) (srv : Server)
    (h : ∀ q, q ∈ srv.m_state → q.2.id = q.1 ∧ ∃ x, x ∈ X ∧ x.id = q.1) :
    ∀ q, q ∈ (pushAll ps srv).m_state → q.2.id = q.1 ∧ ∃ x, x ∈ X ∧ x.id = q.1 := by
  induction ps generalizing srv with
  | nil => exact h
  | cons p rest ih => exact ih _ (PushSignal_keeps_ids X p srv h)

/-- C9: after the handler of `SetSignals(X)` the key set of the table is the
set of ids occurring in `X` (each key once), each id maps to the last element
of `X` carrying it whatever the previous table held, an id outside `X` has no
entry, a snapshot returns only elements of `X`, and after any further
`PushSignal` calls a snapshot returns only signals whose id occurs in `X`. -/
theorem C9_SetSignals_replaces_table (X : List Signal) (srv : Server) (ss : Sessions) :
    (∀ k, k ∈ (SetSignalsHandler X srv ss).1.m_state.keys ↔ ∃ x, x ∈ X ∧ x.id = k) ∧
      (SetSignalsHandler X srv ss).1.m_state.WF ∧
      (∀ k, (SetSignalsHandler X srv ss).1.m_state.find k =
        (X.filter (fun x => decide (x.id = k))).getLast?) ∧
      (∀ k, (∀ x, x ∈ X → x.id ≠ k) → (SetSignalsHandler X srv ss).1.m_state.find k = none) ∧
      (∀ f y, y ∈ (GetSnapshot f (SetSignalsHandler X srv ss).1).2 → y ∈ X) ∧
      (∀ ps f y, y ∈ (GetSnapshot f (pushAll ps (SetSignalsHandler X srv ss).1)).2 →
        ∃ x, x ∈ X ∧ x.id = y.id) := by
  have hfind : ∀ k, (SetSignalsHandler X srv ss).1.m_state.find k =
      (X.filter (fun x => decide (x.id = k))).getLast? := by
    intro k
    show Table.find (setLoop X []) k = _
    rw [setLoop_find]
    cases (X.filter (fun x => decide (x.id = k))).getLast? <;> simp [Table.find]
  have hinv : ∀ q, q ∈ (SetSignalsHandler X srv ss).1.m_state →
      q.2.id = q.1 ∧ ∃ x, x ∈ X ∧ x.id = q.1 := by
    intro q hq
    have hq' : q ∈ setLoop X [] := hq
    rcases setLoop_mem X [] q hq' with h | ⟨h1, h2⟩
    · cases h
    · exact ⟨h2, q.2, h1, h2⟩
  refine ⟨?_, ?_, hfind, ?_, ?_, ?_⟩
  · intro k
    constructor
    · intro hk
      by_contra hno
      have hnone : (SetSignalsHandler X srv ss).1.m_state.find k = none := by
        rw [hfind, getLast?_filter_eq_none]
        intro x hx hxk
        exact hno ⟨x, hx, hxk⟩
      exact (Table.find_eq_none_iff _ _).mp hnone hk
    · rintro ⟨x, hx, hxk⟩
      by_contra hk
      have hnone := (Table.find_eq_none_iff _ _).mpr hk
      rw [hfind, getLast?_filter_eq_none] at hnone
      exact hnone x hx hxk
  · exact setLoop_WF X [] (by simp [Table.WF, Table.keys])
  · intro k hk
    rw [hfind, getLast?_filter_eq_none]
    exact hk
  · intro f y hy
    obtain ⟨⟨k, hmem⟩, _⟩ := (mem_GetSnapshot f _ y).mp hy
    have hq' : (k, y) ∈ setLoop X [] := hmem
    rcases setLoop_mem X [] (k, y) hq' with h | ⟨h1, _⟩
    · cases h
    · exact h1
  · intro ps f y hy
    obtain ⟨⟨k, hmem⟩, _⟩ := (mem_GetSnapshot f _ y).mp hy
    obtain ⟨hid, x, hx, hxk⟩ := pushAll_keeps_ids X ps _ hinv (k, y) hmem
    exact ⟨x, hx, by rw [hxk]; exact hid.symm⟩

/-- Scenario S4 for C9: on the table of scenario S1, `SetSignals` of the single
signal `(7, analog, 2.2, t=0)` followed by `GetSnapshot(3)` gives that signal
alone, and id 1 has no entry any more. -/
theorem C9_SetSignals_replaces_table_witness :
    (GetSnapshot 3 (SetSignalsHandler listS4 { m_state := tableS1 } (fun _ => none)).1).2 =
        [{ id := 7, type := 2, value := 0x400199999999999A, ts := 0 }] ∧
      (SetSignalsHandler listS4 { m_state := tableS1 } (fun _ => none)).1.m_state.find 1
        = none :=
  ⟨by decide,
    (C9_SetSignals_replaces_table listS4 { m_state := tableS1 } (fun _ => none)).2.2.2.1 1
      (by decide)⟩

theorem closeLoop_fst (subs : List Nat) (ss : Sessions) :
    (closeLoop subs ss).1 = subs.filter (fun w => (ss w).isSome) := by
  induction subs generalizing ss with
  | nil => rfl
  | cons w rest ih =>
    cases hw : ss w with
    | none => simp [closeLoop, hw, ih]
    | some sp =>
      have hlive : ∀ h, (if h = w then some (ForceClose sp) else ss h).isSome = (ss h).isSome := by
        intro h
        by_cases hh : h = w
        · simp [hh, hw]
        · simp [hh]
      simp only [closeLoop, hw, ih, hlive]
      simp [List.filter_cons, hw]

theorem closeLoop_snd (subs : List Nat) (ss : Sessions) (h : Nat) :
    (closeLoop subs ss).2 h =
      (ss h).map (fun sp =>
        { sp with strand := sp.strand ++ List.replicate (subs.count h) StrandTask.forceClose }) := by
  induction subs generalizing ss with
  | nil =>
    cases hs : ss h <;> simp [closeLoop, hs]
  | cons w rest ih =>
    cases hw : ss w with
    | none =>
      simp only [closeLoop, hw, ih]
      by_cases hh : h = w
      · subst hh
        simp [hw]
      · have hh' : ¬ w = h := fun e => hh e.symm
        simp [List.count_cons, hh']
    | some sp =>
      simp only [closeLoop, hw, ih]
      by_cases hh : h = w
      · subst hh
        simp [hw, ForceClose, List.count_cons, List.replicate_succ]
      · have hh' : ¬ w = h := fun e => hh e.symm
        simp [hh, List.count_cons, hh']

theorem close_closes (s : Session) (hinv : s.m_closing = true → s.m_socket_open = false) :
    (close s).m_closing = true ∧ (close s).m_socket_open = false := by
  unfold close
  by_cases hc : s.m_closing = true
  · simp [hc, hinv hc]
  · by_cases ho : s.m_socket_open = true
    · simp [hc, ho]
    · simp [hc, ho]

theorem runTask_closed_stable (t : StrandTask) (s : Session)
    (h : s.m_closing = true ∧ s.m_socket_open = false) :
    (runTask t s).m_closing = true ∧ (runTask t s).m_socket_open = false := by
  cases t with
  | deliver updates => simp [runTask, deliverTask, h.1, h.2]
  | forceClose => simp [runTask, close, h.1, h.2]
  | clearQueue => simp [runTask, h.1, h.2]

theorem do_write_flags (s : Session) :
    (do_write s).m_closing = s.m_closing ∧ (do_write s).m_socket_open = s.m_socket_open ∧
      (do_write s).strand = s.strand := by
  unfold do_write
  by_cases ho : s.m_socket_open = true
  · cases hq : s.m_que_write <;> simp [ho]
  · simp [ho]

theorem deliverTask_flags (updates : List Signal) (s : Session) :
    (deliverTask updates s).m_closing = s.m_closing ∧
      (deliverTask updates s).m_socket_open = s.m_socket_open ∧
      (deliverTask updates s).strand = s.strand := by
  unfold deliverTask
  by_cases ho : s.m_socket_open = true
  · by_cases hstart : (s.m_que_write.isEmpty && !s.m_writing) = true
    · simp only [ho, hstart, Bool.not_true, Bool.false_eq_true, if_false, if_true]
      exact do_write_flags _
    · simp [ho, hstart]
  · simp [ho]

theorem runTask_inv (t : StrandTask) (s : Session)
    (hinv : s.m_closing = true → s.m_socket_open = false) :
    (runTask t s).m_closing = true → (runTask t s).m_socket_open = false := by
  cases t with
  | deliver updates =>
    obtain ⟨h1, h2, _⟩ := deliverTask_flags updates s
    simp only [runTask, h1, h2]
    exact hinv
  | forceClose =>
    intro _
    exact (close_closes s hinv).2
  | clearQueue => simpa [runTask] using hinv

theorem runTask_strand (t : StrandTask) (s : Session) (ht : t ≠ StrandTask.forceClose) :
    (runTask t s).strand = s.strand := by
  cases t with
  | deliver updates => exact (deliverTask_flags updates s).2.2
  | forceClose => exact absurd rfl ht
  | clearQueue => rfl

theorem strandStep_closed_stable (s : Session)
    (h : s.m_closing = true ∧ s.m_socket_open = false) :
    (strandStep s).m_closing = true ∧ (strandStep s).m_socket_open = false := by
  unfold strandStep
  cases hs : s.strand with
  | nil => exact h
  | cons t rest => exact runTask_closed_stable t _ h

theorem strandRun_closed_stable (fuel : Nat) (s : Session)
    (h : s.m_closing = true ∧ s.m_socket_open = false) :
    (strandRun fuel s).m_closing = true ∧ (strandRun fuel s).m_socket_open = false := by
  induction fuel generalizing s with
  | zero => exact h
  | succ n ih => exact ih _ (strandStep_closed_stable s h)

theorem strandRun_closes (fuel : Nat) (s : Session)
    (hinv : s.m_closing = true → s.m_socket_open = false)
    (hmem : StrandTask.forceClose ∈ s.strand) (hfuel : s.strand.length ≤ fuel) :
    (strandRun fuel s).m_closing = true ∧ (strandRun fuel s).m_socket_open = false := by
  induction fuel generalizing s with
  | zero =>
    have hnil : s.strand = [] := List.eq_nil_of_length_eq_zero (Nat.le_zero.mp hfuel)
    rw [hnil] at hmem
    cases hmem
  | succ n ih =>
    cases hs : s.strand with
    | nil =>
      rw [hs] at hmem
      cases hmem
    | cons t rest =>
      have hstep : strandStep s = runTask t { s with strand := rest } := by
        simp [strandStep, hs]
      have hrun : strandRun (n + 1) s = strandRun n (strandStep s) := rfl
      rw [hrun, hstep]
      by_cases ht : t = StrandTask.forceClose
      · subst ht
        exact strandRun_closed_stable n _ (close_closes _ hinv)
      · have hstr := runTask_strand t { s with strand := rest } ht
        apply ih
        · exact runTask_inv t _ hinv
        · rw [hstr]
          rw [hs] at hmem
          rcases List.mem_cons.mp hmem with h | h
          · exact absurd h.symm ht
          · exact h
        · rw [hstr]
          rw [hs] at hfuel
          simpa using hfuel

/-- C10 (as stated, refuted): the registry holds handle 0 only; the session of
handle 1 exists, accepted and started, but has not subscribed. The handler of
`SetSignals` leaves that session exactly as it was, with nothing posted to its
strand, so it is open and not closing however long its strand runs: not every
session that existed before `SetSignals` ends up closed. -/
theorem C10_unsubscribed_session_stays_open :
    acceptedStore 1 = some startedSession ∧
      (SetSignalsHandler listS4 { m_state := tableS1, m_subscribers := [0] }
        acceptedStore).2 1 = some startedSession ∧
      (strandRun 4 startedSession).m_closing = false ∧
      (strandRun 4 startedSession).m_socket_open = true ∧
      ¬ (∃ sp', (SetSignalsHandler listS4 { m_state := tableS1, m_subscribers := [0] }
          acceptedStore).2 1 = some sp' ∧
        ∀ fuel, sp'.strand.length ≤ fuel →
          (strandRun fuel sp').m_closing = true ∧ (strandRun fuel sp').m_socket_open = false) := by
  have hafter : (SetSignalsHandler listS4 { m_state := tableS1, m_subscribers := [0] }
      acceptedStore).2 1 = some startedSession := by decide
  refine ⟨by decide, hafter, by decide, by decide, ?_⟩
  rintro ⟨sp', hsp, hclosed⟩
  rw [hafter] at hsp
  cases hsp
  have h4 := (hclosed 4 (by decide)).1
  revert h4
  decide

/-- C10 (amended): the handler of `SetSignals` keeps exactly the registry
entries whose session is alive, in their order, and posts one `ForceClose`
handler to a session for each of its registry entries; a session without an
entry, such as one that was accepted and has not subscribed, is left as it
was; running that handler sets the closing latch and closes the socket; so
every session of the registry that is still alive is closed once its strand
has run the handlers posted to it. -/
theorem C10_reset_invalidation (X : List Signal) (srv : Server) (ss : Sessions) :
    (SetSignalsHandler X srv ss).1.m_subscribers =
        srv.m_subscribers.filter (fun w => (ss w).isSome) ∧
      (∀ h, (SetSignalsHandler X srv ss).2 h =
        (ss h).map (fun sp =>
          { sp with strand := sp.strand ++
              List.replicate (srv.m_subscribers.count h) StrandTask.forceClose })) ∧
      (∀ h, h ∉ srv.m_subscribers → (SetSignalsHandler X srv ss).2 h = ss h) ∧
      (∀ s : Session, (s.m_closing = true → s.m_socket_open = false) →
        (runTask StrandTask.forceClose s).m_closing = true ∧
          (runTask StrandTask.forceClose s).m_socket_open = false) ∧
      (∀ h sp, h ∈ srv.m_subscribers → ss h = some sp →
        (sp.m_closing = true → sp.m_socket_open = false) →
        ∃ sp', (SetSignalsHandler X srv ss).2 h = some sp' ∧
          ∀ fuel, sp'.strand.length ≤ fuel →
            (strandRun fuel sp').m_closing = true ∧
              (strandRun fuel sp').m_socket_open = false) := by
  have hsnd : ∀ h, (SetSignalsHandler X srv ss).2 h =
      (ss h).map (fun sp =>
        { sp with strand := sp.strand ++
            List.replicate (srv.m_subscribers.count h) StrandTask.forceClose }) :=
    fun h => closeLoop_snd srv.m_subscribers ss h
  refine ⟨closeLoop_fst srv.m_subscribers ss, hsnd, ?_, ?_, ?_⟩
  · intro h hreg
    rw [hsnd, List.count_eq_zero_of_not_mem hreg]
    cases ss h <;> simp
  · intro s hinv
    exact close_closes s hinv
  · intro h sp hreg hlive hinv
    refine ⟨{ sp with strand := sp.strand ++
        List.replicate (srv.m_subscribers.count h) StrandTask.forceClose },
      by rw [hsnd, hlive]; rfl, ?_⟩
    intro fuel hfuel
    have hpos : 0 < srv.m_subscribers.count h := List.count_pos_iff.mpr hreg
    refine strandRun_closes fuel _ hinv ?_ hfuel
    apply List.mem_append_right
    exact List.mem_replicate.mpr ⟨by omega, rfl⟩

/-- Scenario S4 for C10: the registry holds the handle 0 of a live session and
the handle 1 of a destroyed one; the handler keeps handle 0 only, and after its
strand has run the session of handle 0 is closed. -/
theorem C10_reset_invalidation_witness :
    (SetSignalsHandler listS4 { m_state := tableS1, m_subscribers := [0, 1] }
        oneSession).1.m_subscribers = [0] ∧
      ∃ sp', (SetSignalsHandler listS4 { m_state := tableS1, m_subscribers := [0, 1] }
          oneSession).2 0 = some sp' ∧
        ∀ fuel, sp'.strand.length ≤ fuel →
          (strandRun fuel sp').m_closing = true ∧ (strandRun fuel sp').m_socket_open = false :=
  ⟨(C10_reset_invalidation listS4 { m_state := tableS1, m_subscribers := [0, 1] }
      oneSession).1.trans (by decide),
    (C10_reset_invalidation listS4 { m_state := tableS1, m_subscribers := [0, 1] }
      oneSession).2.2.2.2 0 {} (by decide) (by decide) (by decide)⟩

/-! ## Lemmas on byte order -/

theorem memBytes_succ (n x : Nat) :
    memBytes (n + 1) x = (x % 256) :: memBytes n (x / 256) := by
  simp only [memBytes, List.range_succ_eq_map, List.map_cons, List.map_map, pow_zero,
    Nat.div_one]
  congr 1
  apply List.map_congr_left
  intro i _
  simp only [Function.comp, Nat.succ_eq_add_one, pow_succ', Nat.div_div_eq_div_mul]

theorem memBytes_succ_last (n x : Nat) :
    memBytes (n + 1) x = memBytes n x ++ [x / 256 ^ n % 256] := by
  simp [memBytes, List.range_succ]

theorem ofMemBytes_memBytes (n x : Nat) : ofMemBytes (memBytes n x) = x % 256 ^ n := by
  induction n generalizing x with
  | zero => simp [memBytes, ofMemBytes, Nat.mod_one]
  | succ n ih =>
    rw [memBytes_succ, ofMemBytes, ih, Nat.mod_mod, pow_succ', Nat.mod_mul]

theorem memBytes_ofMemBytes (bs : List Nat) :
    memBytes bs.length (ofMemBytes bs) = bs.map (fun b => b % 256) := by
  induction bs with
  | nil => rfl
  | cons b rest ih =>
    rw [List.length_cons, memBytes_succ, ofMemBytes, List.map_cons]
    have h1 : (b % 256 + 256 * ofMemBytes rest) % 256 = b % 256 := by omega
    have h2 : (b % 256 + 256 * ofMemBytes rest) / 256 = ofMemBytes rest := by omega
    rw [h1, h2, ih]

theorem memBytes_map_mod (n x : Nat) :
    (memBytes n x).map (fun b => b % 256) = memBytes n x := by
  simp [memBytes, Function.comp]

theorem memBytes_byteswap (n x : Nat) :
    memBytes n (byteswap n x) = (memBytes n x).reverse := by
  have h := memBytes_ofMemBytes (memBytes n x).reverse
  rw [List.length_reverse, memBytes_length, List.map_reverse, memBytes_map_mod] at h
  exact h

theorem bigEndian_eq (n x : Nat) : bigEndian n x = (memBytes n x).reverse := by
  induction n with
  | zero => rfl
  | succ n ih => rw [bigEndian, memBytes_succ_last, List.reverse_append, ih]; rfl

theorem ofMemBytes_reverse (bs : List Nat) : ofMemBytes bs.reverse = ofBigEndian bs := by
  induction bs using List.reverseRecOn with
  | nil => rfl
  | append_singleton l b ih =>
    rw [List.reverse_append, List.reverse_singleton, List.singleton_append, ofMemBytes, ih]
    simp only [ofBigEndian, List.foldl_append, List.foldl_cons, List.foldl_nil]
    omega

theorem ofBigEndian_map_mod (bs : List Nat) :
    ofBigEndian (bs.map (fun b => b % 256)) = ofBigEndian bs := by
  induction bs using List.reverseRecOn with
  | nil => rfl
  | append_singleton l b ih =>
    simp only [ofBigEndian, List.map_append, List.map_cons, List.map_nil, List.foldl_append,
      List.foldl_cons, List.foldl_nil, Nat.mod_mod] at ih ⊢
    rw [ih]

theorem byteswap_ofMemBytes (bs : List Nat) :
    byteswap bs.length (ofMemBytes bs) = ofBigEndian bs := by
  rw [byteswap, memBytes_ofMemBytes, ofMemBytes_reverse, ofBigEndian_map_mod]

theorem byteswap_byteswap (n x : Nat) : byteswap n (byteswap n x) = x % 256 ^ n := by
  rw [byteswap, memBytes_byteswap, List.reverse_reverse, ofMemBytes_memBytes]

theorem ofBigEndian_bigEndian (n x : Nat) : ofBigEndian (bigEndian n x) = x % 256 ^ n := by
  rw [← ofMemBytes_reverse, bigEndian_eq, List.reverse_reverse, ofMemBytes_memBytes]

theorem recordBytes_eq_specRecord (e : Signal) : recordBytes e = specRecord e := by
  simp only [recordBytes, specRecord, host_to_net_u32, host_to_net_u64, net_to_host_u64,
    memBytes_byteswap, bigEndian_eq]

theorem dataHeader_eq (len : Nat) (h : len < 2 ^ 32) :
    dataHeader len = [0xAA, 0x55, 1, 0x02] ++ bigEndian 4 len := by
  have hsig : memBytes 2 (host_to_net_u16 SIGNAL_HEADER_SIGNATURE) = [0xAA, 0x55] := by decide
  simp only [dataHeader, hsig, Nat.mod_eq_of_lt h, host_to_net_u32, memBytes_byteswap,
    bigEndian_eq]
  rfl

/-! ## The claims on the wire format -/

theorem specDataFrame_length (es : List Signal) :
    (specDataFrame es).length = 8 + 13 * es.length := by
  have hrec : (es.map specRecord).flatten = (es.map recordBytes).flatten := by
    congr 1
    apply List.map_congr_left
    intro e _
    exact (recordBytes_eq_specRecord e).symm
  have hbe : (bigEndian 4 (13 * es.length)).length = 4 := by
    rw [bigEndian_eq, List.length_reverse, memBytes_length]
  simp only [specDataFrame, List.length_append, hrec, flatten_recordBytes_length, hbe,
    List.length_cons, List.length_nil]

theorem buildFrame_eq_spec (F : Nat) (updates : List Signal)
    (hlen : 13 * (updates.filter (fun e => typeMatches e.type F)).length < 2 ^ 32) :
    buildFrame F updates = specDataFrame (updates.filter (fun e => typeMatches e.type F)) := by
  have hrec : ((updates.filter (fun e => typeMatches e.type F)).map recordBytes) =
      ((updates.filter (fun e => typeMatches e.type F)).map specRecord) := by
    apply List.map_congr_left
    intro e _
    exact recordBytes_eq_specRecord e
  rw [buildFrame_eq, dataHeader_eq _ hlen, hrec]
  rfl

/-- C11: on an open session, when the `k` updates that survive the filter
satisfy `13 * k < 2 ^ 32`, the frame that the handler of `DeliverUpdates`
appends is the data frame of the specification for these updates, in order:
`AA 55 01 02`, then `13 * k` as four big-endian bytes (which decode back to
`13 * k`), then for each update its id as four big-endian bytes, its type byte
and the bits of its value as eight big-endian bytes; it has `8 + 13 * k` bytes. -/
theorem C11_wire_layout (updates : List Signal) (s : Session)
    (hopen : s.m_socket_open = true)
    (hlen : 13 * (updates.filter (fun e => typeMatches e.type s.m_req_type)).length < 2 ^ 32) :
    (deliverTask updates s).m_que_write =
        s.m_que_write ++
          [specDataFrame (updates.filter (fun e => typeMatches e.type s.m_req_type))] ∧
      (specDataFrame (updates.filter (fun e => typeMatches e.type s.m_req_type))).length =
        8 + 13 * (updates.filter (fun e => typeMatches e.type s.m_req_type)).length ∧
      ofBigEndian
          (bigEndian 4 (13 * (updates.filter (fun e => typeMatches e.type s.m_req_type)).length)) =
        13 * (updates.filter (fun e => typeMatches e.type s.m_req_type)).length := by
  refine ⟨?_, specDataFrame_length _, ?_⟩
  · rw [deliverTask_que_write updates s hopen, buildFrame_eq_spec _ _ hlen]
  · rw [ofBigEndian_bigEndian]
    exact Nat.mod_eq_of_lt hlen

/-- A use of C11: the session with filter 2 is delivered the discrete update of
id 1 and the analog update `(2, analog, 1.5)`; the frame has 21 bytes. -/
theorem C11_wire_layout_witness :
    (deliverTask [updateS1, updateAnalog2] sessionS2).m_que_write =
        [] ++ [[0xAA, 0x55, 1, 2, 0, 0, 0, 13,
                0, 0, 0, 2, 2, 0x3F, 0xF8, 0, 0, 0, 0, 0, 0]] ∧
      (specDataFrame [updateAnalog2]).length = 8 + 13 * 1 :=
  ⟨(C11_wire_layout [updateS1, updateAnalog2] sessionS2 rfl (by decide)).1,
    (C11_wire_layout [updateS1, updateAnalog2] sessionS2 rfl (by decide)).2.1⟩

theorem memBytes_mod (n x : Nat) : memBytes n (x % 256 ^ n) = memBytes n x := by
  have h := memBytes_ofMemBytes (memBytes n x)
  rw [memBytes_length, ofMemBytes_memBytes, memBytes_map_mod] at h
  exact h

theorem byteswap_mod (n x : Nat) : byteswap n (x % 256 ^ n) = byteswap n x := by
  rw [byteswap, memBytes_mod, byteswap]

theorem decodeRecord_recordBytes (e : Signal) (R : List Nat) :
    decodeRecord (recordBytes e ++ R) =
      ClientOutput.update (e.id % 2 ^ 32) (e.type % 256) (e.value % 2 ^ 64) := by
  have h4 : (memBytes 4 (host_to_net_u32 e.id)).length = 4 := memBytes_length _ _
  have h8 : (memBytes 8 (host_to_net_u64 e.value)).length = 8 := memBytes_length _ _
  have htake : (recordBytes e ++ R).take 4 = memBytes 4 (host_to_net_u32 e.id) := by
    simp only [recordBytes, List.append_assoc]
    exact List.take_left' h4
  have hdrop : (recordBytes e ++ R).drop 5 = memBytes 8 (host_to_net_u64 e.value) ++ R := by
    have h5 : (memBytes 4 (host_to_net_u32 e.id) ++ [e.type % 256]).length = 5 := by
      simp [h4]
    simp only [recordBytes, List.append_assoc]
    rw [← List.append_assoc]
    exact List.drop_left' h5
  have hbyte : byteAt (recordBytes e ++ R) 4 = e.type % 256 := by
    simp only [recordBytes, List.append_assoc, byteAt]
    rw [List.getD_append_right _ _ _ _ (by rw [h4]), h4]
    simp
  rw [decodeRecord, htake, hdrop, hbyte, List.take_left' h8]
  simp only [ofMemBytes_memBytes, ntohl, net_to_host_u64, host_to_net_u64, host_to_net_u32,
    byteswap_mod, byteswap_byteswap]
  norm_num

theorem recordLoop_flatten (l : List Signal) (fuel : Nat) (tr : List Nat)
    (out : List ClientOutput) (hfuel : l.length ≤ fuel) (htr : tr.length < 13) :
    recordLoop fuel ((l.map recordBytes).flatten ++ tr) out =
      out ++ l.map (fun e =>
        ClientOutput.update (e.id % 2 ^ 32) (e.type % 256) (e.value % 2 ^ 64)) := by
  induction l generalizing fuel out with
  | nil =>
    cases fuel with
    | zero => simp [recordLoop]
    | succ f =>
      have : ¬ 13 ≤ tr.length := by omega
      simp [recordLoop, this]
  | cons e rest ih =>
    cases fuel with
    | zero => simp at hfuel
    | succ f =>
      have hlen : 13 ≤ (recordBytes e ++ ((rest.map recordBytes).flatten ++ tr)).length := by
        rw [List.length_append, recordBytes_length]; omega
      simp only [List.map_cons, List.flatten_cons, List.append_assoc, recordLoop, hlen, if_true]
      rw [List.drop_left' (recordBytes_length e), decodeRecord_recordBytes,
        ih f _ (by simpa using hfuel)]
      simp

theorem buildFrame_drop (F : Nat) (updates : List Signal) :
    (buildFrame F updates).drop 8 =
      ((updates.filter (fun e => typeMatches e.type F)).map recordBytes).flatten := by
  rw [buildFrame_eq]
  exact List.drop_left' (by simp [dataHeader, memBytes_length])

theorem buildFrame_header (F : Nat) (updates : List Signal) :
    net_to_host_u16 (readHeader (buildFrame F updates)).signature = 0xAA55 ∧
      (readHeader (buildFrame F updates)).version = 1 ∧
      (readHeader (buildFrame F updates)).dataType = 0x02 ∧
      net_to_host_u32 (readHeader (buildFrame F updates)).len =
        (13 * (updates.filter (fun e => typeMatches e.type F)).length) % 2 ^ 32 := by
  have hsig : memBytes 2 (host_to_net_u16 SIGNAL_HEADER_SIGNATURE) = [0xAA, 0x55] := by decide
  have h4 : ∀ x, (memBytes 4 x).length = 4 := fun x => memBytes_length 4 x
  have hfr : ∀ n R, dataHeader n ++ R =
      0xAA :: 0x55 :: 1 :: 2 :: (memBytes 4 (host_to_net_u32 (n % 2 ^ 32)) ++ R) := by
    intro n R
    simp [dataHeader, hsig]
  rw [buildFrame_eq, hfr]
  refine ⟨?_, rfl, rfl, ?_⟩
  · show net_to_host_u16 (ofMemBytes [0xAA, 0x55]) = 0xAA55
    decide
  simp only [readHeader, List.drop_succ_cons, List.drop_zero, List.take_left' (h4 _),
    ofMemBytes_memBytes, net_to_host_u32, host_to_net_u32, byteswap_mod, byteswap_byteswap]
  norm_num

theorem hugeBatch_passes (e : Signal) (he : e ∈ hugeBatch) : typeMatches e.type 1 = true := by
  have h : e = updateS1 := List.eq_of_mem_replicate he
  rw [h]
  decide

theorem hugeBatch_filter : hugeBatch.filter (fun e => typeMatches e.type 1) = hugeBatch :=
  List.filter_eq_self.mpr hugeBatch_passes

theorem hugeBatch_length : hugeBatch.length = 330382100 := List.length_replicate _ _

/-- C12 (as stated, refuted): every signal of the batch of 330,382,100 updates
passes filter 1, the payload of its frame has `2 ^ 32 + 4` bytes, and the length
parsed from the header is 4: the length field holds the payload size modulo
`2 ^ 32`. -/
theorem C12_length_field_wraps :
    (∀ e, e ∈ hugeBatch → typeMatches e.type 1 = true) ∧
      ((buildFrame 1 hugeBatch).drop 8).length = 4294967300 ∧
      net_to_host_u32 (readHeader (buildFrame 1 hugeBatch)).len = 4 ∧
      ¬ (net_to_host_u32 (readHeader (buildFrame 1 hugeBatch)).len =
          ((buildFrame 1 hugeBatch).drop 8).length) := by
  have hpay : ((buildFrame 1 hugeBatch).drop 8).length = 4294967300 := by
    rw [buildFrame_drop, flatten_recordBytes_length, hugeBatch_filter, hugeBatch_length]
  have hfield : net_to_host_u32 (readHeader (buildFrame 1 hugeBatch)).len = 4 := by
    rw [(buildFrame_header 1 hugeBatch).2.2.2, hugeBatch_filter, hugeBatch_length]
    norm_num
  refine ⟨hugeBatch_passes, hpay, hfield, ?_⟩
  rw [hpay, hfield]
  decide

/-- C12 (amended): for every list of signals that all pass the filter and whose
payload is shorter than `2 ^ 32` bytes, the header of the frame built by
`DeliverUpdates` parses to signature `0xAA55`, version 1, type `0x02` and the
payload size, the payload has 13 bytes for each signal, and the record loop of
`Client::process_body` emits one record for each signal, in order, with its id
(a `uint32_t`), its type byte and the 64 bits of its value. -/
theorem C12_frame_round_trip (F : Nat) (l : List Signal) (c : Client)
    (hpass : ∀ e, e ∈ l → typeMatches e.type F = true) (hlen : 13 * l.length < 2 ^ 32) :
    net_to_host_u16 (readHeader (buildFrame F l)).signature = SIGNAL_HEADER_SIGNATURE ∧
      (readHeader (buildFrame F l)).version = 1 ∧
      (readHeader (buildFrame F l)).dataType = 0x02 ∧
      net_to_host_u32 (readHeader (buildFrame F l)).len = ((buildFrame F l).drop 8).length ∧
      ((buildFrame F l).drop 8).length = 13 * l.length ∧
      (process_body 0x02 ((buildFrame F l).drop 8) c).out =
        c.out ++ l.map (fun e =>
          ClientOutput.update (e.id % 2 ^ 32) (e.type % 256) (e.value % 2 ^ 64)) := by
  have hfil : l.filter (fun e => typeMatches e.type F) = l := List.filter_eq_self.mpr hpass
  have hpay : ((buildFrame F l).drop 8).length = 13 * l.length := by
    rw [buildFrame_drop, flatten_recordBytes_length, hfil]
  obtain ⟨h1, h2, h3, h4⟩ := buildFrame_header F l
  refine ⟨h1, h2, h3, ?_, hpay, ?_⟩
  · rw [h4, hfil, hpay]
    exact Nat.mod_eq_of_lt hlen
  · have hbody : (buildFrame F l).drop 8 = (l.map recordBytes).flatten ++ [] := by
      rw [buildFrame_drop, hfil, List.append_nil]
    have hfuel : l.length ≤ ((buildFrame F l).drop 8).length := by rw [hpay]; omega
    simp only [process_body, if_true]
    rw [hbody] at hfuel ⊢
    exact recordLoop_flatten l _ [] c.out hfuel (by simp)

/-- Scenario S1 for C12: the snapshot frame of `(1, discrete, 0.0)` and
`(2, analog, 1.5)` for filter 3 is parsed and decoded by the client into these
two records. -/
theorem C12_frame_round_trip_witness :
    net_to_host_u32 (readHeader (buildFrame 3 (tableS1.map Prod.snd))).len = 26 ∧
      (process_body 0x02 ((buildFrame 3 (tableS1.map Prod.snd)).drop 8) {}).out =
        [ClientOutput.update 1 1 0, ClientOutput.update 2 2 0x3FF8000000000000] := by
  have h := C12_frame_round_trip 3 (tableS1.map Prod.snd) {} (by decide) (by decide)
  exact ⟨h.2.2.2.1.trans h.2.2.2.2.1, h.2.2.2.2.2⟩

/-! ## The claims on `Client::process_body` -/

theorem recordLoop_eq (fuel : Nat) (rest : List Nat) (out : List ClientOutput)
    (hfuel : rest.length / 13 ≤ fuel) :
    recordLoop fuel rest out =
      out ++ (List.range (rest.length / 13)).map (fun i => decodeRecord (rest.drop (13 * i))) := by
  induction fuel generalizing rest out with
  | zero =>
    have h0 : rest.length / 13 = 0 := by omega
    simp [recordLoop, h0]
  | succ f ih =>
    by_cases hlen : 13 ≤ rest.length
    · have hk : rest.length / 13 = (rest.drop 13).length / 13 + 1 := by
        rw [List.length_drop]; omega
      simp only [recordLoop, hlen, if_true]
      rw [ih _ _ (by omega), hk, List.range_succ_eq_map, List.map_cons, List.map_map]
      simp only [List.append_assoc, List.singleton_append, Nat.mul_zero, List.drop_zero]
      congr 2
      apply List.map_congr_left
      intro i _
      simp only [Function.comp, List.drop_drop, Nat.succ_eq_add_one]
      congr 2
      omega
    · have h0 : rest.length / 13 = 0 := by omega
      simp [recordLoop, hlen, h0]

/-- C13 (as stated, refuted): a data payload of 14 bytes, which is not a
multiple of 13; `process_body` emits the record of the first 13 bytes, skips the
last byte, leaves the socket open and schedules no reconnect. -/
theorem C13_trailing_byte_skipped :
    payload14.length % 13 ≠ 0 ∧
      (process_body 0x02 payload14 {}).out = [ClientOutput.update 2 2 0x3FF8000000000000] ∧
      (process_body 0x02 payload14 {}).m_socket_open = true ∧
      (process_body 0x02 payload14 {}).reconnects = 0 ∧
      process_body 0x02 payload14 {} ≠ schedule_reconnect {} := by
  decide

/-- C13 (amended): for every data payload `Client::process_body` emits, in
order, the `len / 13` complete records found at the offsets 0, 13, 26, ... and
ignores the `len % 13` bytes behind them; it does not reject the frame: the
socket stays as it was and no reconnect is scheduled. The completion handler of
the body read, and `start_read_body` itself for an empty body, then calls
`start_read_header` on the result, which on an open socket starts the read of
the next header and changes nothing else. -/
theorem C13_process_body_skips_trailing (body : List Nat) (c : Client) :
    (process_body 0x02 body c).out =
        c.out ++ (List.range (body.length / 13)).map
          (fun i => decodeRecord (body.drop (13 * i))) ∧
      (process_body 0x02 body c).out.length = c.out.length + body.length / 13 ∧
      (process_body 0x02 body c).m_socket_open = c.m_socket_open ∧
      (process_body 0x02 body c).reconnects = c.reconnects ∧
      (process_body 0x02 body c).m_msg_num = c.m_msg_num ∧
      (process_body 0x02 body c).async_read = c.async_read ∧
      onClientBody ErrorCode.success 0x02 body c =
        start_read_header (process_body 0x02 body c) ∧
      start_read_body 0 0x02 c = start_read_header (process_body 0x02 [] c) ∧
      (c.m_socket_open = true →
        onClientBody ErrorCode.success 0x02 body c =
            { process_body 0x02 body c with async_read := some ReadOp.header } ∧
          (onClientBody ErrorCode.success 0x02 body c).async_read = some ReadOp.header ∧
          (onClientBody ErrorCode.success 0x02 body c).m_socket_open = true ∧
          (onClientBody ErrorCode.success 0x02 body c).reconnects = c.reconnects ∧
          (onClientBody ErrorCode.success 0x02 body c).out =
            c.out ++ (List.range (body.length / 13)).map
              (fun i => decodeRecord (body.drop (13 * i)))) := by
  have hout : (process_body 0x02 body c).out =
      c.out ++ (List.range (body.length / 13)).map
        (fun i => decodeRecord (body.drop (13 * i))) := by
    simp only [process_body, if_true]
    exact recordLoop_eq body.length body c.out (Nat.div_le_self _ _)
  have hopen : (process_body 0x02 body c).m_socket_open = c.m_socket_open := by
    simp [process_body]
  have hrec : (process_body 0x02 body c).reconnects = c.reconnects := by
    simp [process_body]
  have hbody : onClientBody ErrorCode.success 0x02 body c =
      start_read_header (process_body 0x02 body c) := by
    simp [onClientBody]
  refine ⟨hout, ?_, hopen, hrec, ?_, ?_, hbody, by simp [start_read_body], ?_⟩
  · rw [hout]; simp
  · simp [process_body]
  · simp [process_body]
  · intro ho
    have hnext : onClientBody ErrorCode.success 0x02 body c =
        { process_body 0x02 body c with async_read := some ReadOp.header } := by
      rw [hbody]
      simp [start_read_header, hopen, ho]
    rw [hnext]
    exact ⟨rfl, rfl, hopen.trans ho, hrec, hout⟩

/-- A use of C13 (amended): the payload of 14 bytes on a connected client; the
record of the first 13 bytes is emitted and the read of the next header is
started on the socket, which is still open. -/
theorem C13_process_body_skips_trailing_witness :
    (onClientBody ErrorCode.success 0x02 payload14 {}).async_read = some ReadOp.header ∧
      (onClientBody ErrorCode.success 0x02 payload14 {}).m_socket_open = true ∧
      (onClientBody ErrorCode.success 0x02 payload14 {}).reconnects = 0 ∧
      (onClientBody ErrorCode.success 0x02 payload14 {}).out =
        [] ++ (List.range (payload14.length / 13)).map
          (fun i => decodeRecord (payload14.drop (13 * i))) :=
  ((C13_process_body_skips_trailing payload14 {}).2.2.2.2.2.2.2.2 rfl).2

/-! ## The claims on the read path of a session -/

theorem close_of_closing (s : Session) (h : s.m_closing = true) : close s = s := by
  simp [close, h]

theorem close_of_not_closing (s : Session) (h : s.m_closing = false) :
    close s =
      { s with m_closing := true, m_socket_open := false,
               socket_closes := s.socket_closes + (if s.m_socket_open then 1 else 0),
               strand := s.strand ++ [StrandTask.clearQueue] } := by
  unfold close
  cases ho : s.m_socket_open <;> simp [h, ho]

theorem readHeader_signature (buf : List Nat) (h : buf.length = 8) :
    net_to_host_u16 (readHeader buf).signature = ofBigEndian (buf.take 2) := by
  have h2 : (buf.take 2).length = 2 := by rw [List.length_take]; omega
  have := byteswap_ofMemBytes (buf.take 2)
  rw [h2] at this
  exact this

theorem readHeader_len (buf : List Nat) (h : buf.length = 8) :
    net_to_host_u32 (readHeader buf).len = ofBigEndian ((buf.drop 4).take 4) := by
  have h4 : ((buf.drop 4).take 4).length = 4 := by
    rw [List.length_take, List.length_drop]; omega
  have := byteswap_ofMemBytes ((buf.drop 4).take 4)
  rw [h4] at this
  exact this

theorem onReadHeader_first (buf : List Nat) (s : Session) (h : buf.length = 8)
    (hfirst : s.m_cnt_read_packet = 0) :
    onReadHeader false buf s =
      if specHeaderAccepted buf then
        async_read_body (ofBigEndian ((buf.drop 4).take 4)) (byteAt buf 3)
          { s with m_cnt_read_packet := 1 }
      else close { s with m_cnt_read_packet := 1 } := by
  have hsig := readHeader_signature buf h
  have hlen := readHeader_len buf h
  have hver : (readHeader buf).version = byteAt buf 2 := rfl
  have hdt : (readHeader buf).dataType = byteAt buf 3 := rfl
  simp only [onReadHeader, hfirst, hsig, hlen, hver, hdt, specHeaderAccepted,
    SIGNAL_HEADER_SIGNATURE]
  by_cases h1 : ofBigEndian (buf.take 2) = 0xAA55
  · by_cases h2 : byteAt buf 2 = 1
    · by_cases h3 : ofBigEndian ((buf.drop 4).take 4) ≤ 10 * 2 ^ 20
      · have h3n : ofBigEndian ((buf.drop 4).take 4) ≤ 10485760 := by
          norm_num at h3; exact h3
        simp [h1, h2, h3n]
      · have h3n : ¬ ofBigEndian ((buf.drop 4).take 4) ≤ 10485760 := by
          norm_num at h3; omega
        have h3' : 10485760 < ofBigEndian ((buf.drop 4).take 4) := by omega
        simp [h1, h2, h3n, h3']
    · simp [h1, h2]
  · simp [h1]

theorem sessionStep_readHeader (self : Nat) (srv : Server) (s : Session) (buf : List Nat)
    (hbuf : buf.length = 8) (hread : s.async_read = some ReadOp.header)
    (hopen : s.m_socket_open = true) :
    sessionStep self (SessionEvent.readDone false buf) (srv, s) =
      (srv, onReadHeader false buf { s with async_read := none }) := by
  have htake : buf.take 8 = buf := List.take_of_length_le (by omega)
  simp [sessionStep, hread, hopen, hbuf, htake]

/-- C14: when the read of the first header of an open session completes with
8 bytes, the handler starts the read of a body (of the announced length and
type) if and only if the big-endian signature is `0xAA55`, the version byte is
1 and the big-endian length is at most `10 * 2 ^ 20`; otherwise it closes the
session (latch set, socket closed) with no read outstanding. In both cases the
server, with its registry, and the write queue are left as they were and no
delivery is posted. -/
theorem C14_header_validation (self : Nat) (srv : Server) (s : Session) (buf : List Nat)
    (hbuf : buf.length = 8) (hfirst : s.m_cnt_read_packet = 0)
    (hread : s.async_read = some ReadOp.header)
    (hopen : s.m_socket_open = true) (hnc : s.m_closing = false) :
    (sessionStep self (SessionEvent.readDone false buf) (srv, s)).1 = srv ∧
      (sessionStep self (SessionEvent.readDone false buf) (srv, s)).2.m_que_write = s.m_que_write ∧
      (sessionStep self (SessionEvent.readDone false buf) (srv, s)).2.async_writes = s.async_writes ∧
      ((∃ len dt, (sessionStep self (SessionEvent.readDone false buf) (srv, s)).2.async_read = some (ReadOp.body len dt)) ↔ specHeaderAccepted buf) ∧
      (specHeaderAccepted buf →
        (sessionStep self (SessionEvent.readDone false buf) (srv, s)).2.async_read =
            some (ReadOp.body (ofBigEndian ((buf.drop 4).take 4)) (byteAt buf 3)) ∧
          (sessionStep self (SessionEvent.readDone false buf) (srv, s)).2.m_closing = false ∧ (sessionStep self (SessionEvent.readDone false buf) (srv, s)).2.m_socket_open = true ∧
          (sessionStep self (SessionEvent.readDone false buf) (srv, s)).2.strand = s.strand) ∧
      (¬ specHeaderAccepted buf →
        (sessionStep self (SessionEvent.readDone false buf) (srv, s)).2.m_closing = true ∧ (sessionStep self (SessionEvent.readDone false buf) (srv, s)).2.m_socket_open = false ∧
          (sessionStep self (SessionEvent.readDone false buf) (srv, s)).2.async_read = none ∧
          (sessionStep self (SessionEvent.readDone false buf) (srv, s)).2.strand = s.strand ++ [StrandTask.clearQueue]) := by
  have hf := onReadHeader_first buf { s with async_read := none } hbuf hfirst
  rw [sessionStep_readHeader self srv s buf hbuf hread hopen, hf]
  by_cases hacc : specHeaderAccepted buf
  · simp [hacc, async_read_body, hopen, hnc]
  · simp [hacc, close, hopen, hnc]

/-- Scenario S6 for C14: a first header with signature `0x0000` closes the
session; a header announcing exactly `10 * 2 ^ 20` bytes starts the read of the
body, one announcing a byte more closes the session. -/
theorem C14_header_validation_witness :
    ((sessionStep 0 (SessionEvent.readDone false headerS6) ({}, startedSession)).2.m_closing
        = true ∧
      (sessionStep 0 (SessionEvent.readDone false headerS6)
        ({}, startedSession)).2.m_socket_open = false ∧
      (sessionStep 0 (SessionEvent.readDone false headerS6) ({}, startedSession)).2.async_read
        = none ∧
      (sessionStep 0 (SessionEvent.readDone false headerS6) ({}, startedSession)).2.strand
        = startedSession.strand ++ [StrandTask.clearQueue]) ∧
      (∃ len dt, (sessionStep 0 (SessionEvent.readDone false headerMax)
        ({}, startedSession)).2.async_read = some (ReadOp.body len dt)) ∧
      (sessionStep 0 (SessionEvent.readDone false headerOver)
        ({}, startedSession)).2.m_closing = true :=
  ⟨(C14_header_validation 0 {} startedSession headerS6 rfl rfl rfl rfl rfl).2.2.2.2.2
      (by decide),
    (C14_header_validation 0 {} startedSession headerMax rfl rfl rfl rfl rfl).2.2.2.1.mpr
      (by decide),
    ((C14_header_validation 0 {} startedSession headerOver rfl rfl rfl rfl rfl).2.2.2.2.2
      (by decide)).1⟩

/-! ## The invariant of a session -/

theorem writeInv_close (s : Session) (h : writeInv s) : writeInv (close s) := by
  obtain ⟨so, rt, q, wr, cl, cnt, st, aw, sc, wif, ar⟩ := s
  simp only [writeInv] at h ⊢
  cases so <;> cases cl <;> simp_all [close]

theorem writeInv_deliverTask (updates : List Signal) (s : Session) (h : writeInv s) :
    writeInv (deliverTask updates s) := by
  obtain ⟨so, rt, q, wr, cl, cnt, st, aw, sc, wif, ar⟩ := s
  simp only [writeInv] at h ⊢
  cases so <;> cases wr <;> cases q <;> simp_all [deliverTask, do_write]
  omega

theorem writeInv_clearQueue (s : Session) (h : writeInv s) (hclosed : s.m_socket_open = false) :
    writeInv { s with m_que_write := [], m_writing := false } := by
  obtain ⟨so, rt, q, wr, cl, cnt, st, aw, sc, wif, ar⟩ := s
  simp only [writeInv] at h ⊢
  simp_all

theorem writeInv_strand (s : Session) (rest : List StrandTask) (h : writeInv s)
    (hsub : ∀ t, t ∈ rest → t ∈ s.strand) : writeInv { s with strand := rest } := by
  obtain ⟨h1, h2, h3, h4, h5, h6⟩ := h
  exact ⟨h1, h2, h3, h4, h5, fun hm => h6 (hsub _ hm)⟩

theorem writeInv_post (s : Session) (t : StrandTask) (h : writeInv s)
    (ht : t ≠ StrandTask.clearQueue) : writeInv { s with strand := s.strand ++ [t] } := by
  obtain ⟨h1, h2, h3, h4, h5, h6⟩ := h
  refine ⟨h1, h2, h3, h4, h5, ?_⟩
  intro hm
  rcases List.mem_append.mp hm with hm' | hm'
  · exact h6 hm'
  · exact absurd (List.mem_singleton.mp hm').symm ht

theorem writeInv_strandStep (s : Session) (h : writeInv s) : writeInv (strandStep s) := by
  unfold strandStep
  cases hs : s.strand with
  | nil => exact h
  | cons t rest =>
    have hrest : writeInv { s with strand := rest } :=
      writeInv_strand s rest h (fun t' ht' => by rw [hs]; exact List.mem_cons_of_mem _ ht')
    cases t with
    | deliver updates => exact writeInv_deliverTask updates _ hrest
    | forceClose => exact writeInv_close _ hrest
    | clearQueue =>
      have hclosed : s.m_socket_open = false :=
        h.2.2.2.2.2 (by rw [hs]; exact List.mem_cons_self _ _)
      exact writeInv_clearQueue _ hrest hclosed

theorem writeInv_onWrite (ec : Bool) (s : Session) (h : writeInv s)
    (hwif : s.writes_in_flight ≠ 0) :
    writeInv (onWrite (ec || !s.m_socket_open)
      { s with writes_in_flight := s.writes_in_flight - 1 }) := by
  obtain ⟨so, rt, q, wr, cl, cnt, st, aw, sc, wif, ar⟩ := s
  simp only [writeInv] at h hwif ⊢
  have hone : wif = 1 := by omega
  subst hone
  cases so <;> cases cl <;> cases ec <;> cases wr <;> cases q with
  | nil => simp_all [onWrite, close, do_write]
  | cons f rest => cases rest <;> simp_all [onWrite, close, do_write]

theorem writeInv_async_read (s : Session) (r : Option ReadOp) (h : writeInv s) :
    writeInv { s with async_read := r } := h

theorem writeInv_async_read_header (s : Session) (h : writeInv s) :
    writeInv (async_read_header s) := by
  unfold async_read_header
  split
  · exact h
  · exact h

theorem writeInv_async_read_body (len dataType : Nat) (s : Session) (h : writeInv s) :
    writeInv (async_read_body len dataType s) := by
  unfold async_read_body
  split
  · exact h
  · exact h

theorem writeInv_onReadHeader (ec : Bool) (buf : List Nat) (s : Session) (h : writeInv s) :
    writeInv (onReadHeader ec buf s) := by
  have h1 : writeInv { s with m_cnt_read_packet := s.m_cnt_read_packet + 1 } := h
  unfold onReadHeader
  split
  · exact writeInv_close _ h
  · simp only []
    split
    · exact writeInv_close _ h1
    · split
      · exact writeInv_close _ h1
      · split
        · exact writeInv_close _ h1
        · split
          · exact writeInv_close _ h1
          · exact writeInv_async_read_body _ _ _ h1

theorem writeInv_handle_subscribe (payload : List Nat) (self : Nat) (srv : Server)
    (s : Session) (h : writeInv s) : writeInv (handle_subscribe payload self srv s).2 := by
  cases payload with
  | nil => exact writeInv_close _ h
  | cons b rest =>
    have h1 : writeInv { s with m_req_type := b } := h
    simp only [handle_subscribe]
    split
    · exact writeInv_post _ _ h1 (by simp)
    · exact h1

theorem writeInv_onReadBody (ec : Bool) (dataType : Nat) (body : List Nat) (self : Nat)
    (srv : Server) (s : Session) (h : writeInv s) :
    writeInv (onReadBody ec dataType body self srv s).2 := by
  unfold onReadBody
  split
  · exact writeInv_close _ h
  · simp only []
    split
    · exact writeInv_async_read_header _ (writeInv_handle_subscribe _ _ _ _ h)
    · exact writeInv_async_read_header _ h

theorem writeInv_sessionStep (self : Nat) (ev : SessionEvent) (w : Server × Session)
    (h : writeInv w.2) : writeInv (sessionStep self ev w).2 := by
  cases ev with
  | callDeliverUpdates updates => exact writeInv_post _ _ h (by simp)
  | callForceClose => exact writeInv_post _ _ h (by simp)
  | runPosted => exact writeInv_strandStep _ h
  | writeDone ec =>
    simp only [sessionStep]
    split
    · exact h
    · rename_i hw
      exact writeInv_onWrite ec _ h hw
  | readDone ec bytes =>
    simp only [sessionStep]
    split
    · exact h
    · exact writeInv_onReadHeader _ _ _ (writeInv_async_read _ none h)
    · exact writeInv_onReadBody _ _ _ _ _ _ (writeInv_async_read _ none h)

theorem writeInv_sessionRun (self : Nat) (evs : List SessionEvent) (w : Server × Session)
    (h : writeInv w.2) : writeInv (sessionRun self evs w).2 := by
  induction evs generalizing w with
  | nil => exact h
  | cons ev rest ih => exact ih _ (writeInv_sessionStep self ev w h)

theorem writeInv_fresh (F : Nat) : writeInv { m_req_type := F } := by
  simp [writeInv]

/-! ## The claims on a second request -/

theorem runTask_read_fields (t : StrandTask) (s : Session) :
    (runTask t s).m_cnt_read_packet = s.m_cnt_read_packet ∧
      (runTask t s).async_read = s.async_read := by
  obtain ⟨so, rt, q, wr, cl, cnt, st, aw, sc, wif, ar⟩ := s
  cases t <;> cases so <;> cases wr <;> cases q <;> cases cl <;>
    simp [runTask, deliverTask, do_write, close]

theorem strandStep_read_fields (s : Session) :
    (strandStep s).m_cnt_read_packet = s.m_cnt_read_packet ∧
      (strandStep s).async_read = s.async_read := by
  unfold strandStep
  cases hs : s.strand with
  | nil => exact ⟨rfl, rfl⟩
  | cons t rest => exact runTask_read_fields t _

theorem close_read_fields (s : Session) :
    (close s).m_cnt_read_packet = s.m_cnt_read_packet ∧ (close s).async_read = s.async_read := by
  obtain ⟨so, rt, q, wr, cl, cnt, st, aw, sc, wif, ar⟩ := s
  cases so <;> cases cl <;> simp [close]

theorem onWrite_read_fields (ec : Bool) (s : Session) :
    (onWrite ec s).m_cnt_read_packet = s.m_cnt_read_packet ∧
      (onWrite ec s).async_read = s.async_read := by
  obtain ⟨so, rt, q, wr, cl, cnt, st, aw, sc, wif, ar⟩ := s
  cases ec <;> cases so <;> cases cl <;> cases q with
  | nil => simp [onWrite, do_write, close]
  | cons f rest => cases rest <;> simp [onWrite, do_write, close]

theorem onReadHeader_second (ec : Bool) (buf : List Nat) (s : Session)
    (hcnt : 1 ≤ s.m_cnt_read_packet) :
    onReadHeader ec buf s =
      if ec then close s else close { s with m_cnt_read_packet := s.m_cnt_read_packet + 1 } := by
  have h : s.m_cnt_read_packet + 1 > 1 := by omega
  cases ec <;> simp [onReadHeader, h]

theorem pastFirstFrame_sessionStep (self : Nat) (ev : SessionEvent) (w : Server × Session)
    (h : pastFirstFrame w.2) :
    (sessionStep self ev w).1 = w.1 ∧ pastFirstFrame (sessionStep self ev w).2 := by
  obtain ⟨hcnt, hbody⟩ := h
  cases ev with
  | callDeliverUpdates updates => exact ⟨rfl, hcnt, hbody⟩
  | callForceClose => exact ⟨rfl, hcnt, hbody⟩
  | runPosted =>
    obtain ⟨h1, h2⟩ := strandStep_read_fields w.2
    refine ⟨rfl, ?_, ?_⟩
    · show 1 ≤ (strandStep w.2).m_cnt_read_packet
      rw [h1]; exact hcnt
    · intro len dt hr
      have hr' : (strandStep w.2).async_read = some (ReadOp.body len dt) := hr
      rw [h2] at hr'
      exact hbody len dt hr'
  | writeDone ec =>
    simp only [sessionStep]
    split
    · exact ⟨rfl, hcnt, hbody⟩
    · obtain ⟨h1, h2⟩ := onWrite_read_fields (ec || !w.2.m_socket_open)
        { w.2 with writes_in_flight := w.2.writes_in_flight - 1 }
      refine ⟨rfl, ?_, ?_⟩
      · simp only [pastFirstFrame, h1]; exact hcnt
      · intro len dt hr
        rw [h2] at hr
        exact hbody len dt hr
  | readDone ec bytes =>
    simp only [sessionStep]
    split
    · exact ⟨rfl, hcnt, hbody⟩
    · rw [onReadHeader_second _ _ _ (by exact hcnt)]
      split
      · obtain ⟨h1, h2⟩ := close_read_fields { w.2 with async_read := none }
        refine ⟨rfl, ?_, ?_⟩
        · show 1 ≤ (close { w.2 with async_read := none }).m_cnt_read_packet
          rw [h1]; exact hcnt
        · intro len dt hr
          rw [h2] at hr
          cases hr
      · obtain ⟨h1, h2⟩ := close_read_fields
          { ({ w.2 with async_read := none } : Session) with
            m_cnt_read_packet := w.2.m_cnt_read_packet + 1 }
        refine ⟨rfl, ?_, ?_⟩
        · show 1 ≤ (close _).m_cnt_read_packet
          rw [h1]
          show 1 ≤ w.2.m_cnt_read_packet + 1
          omega
        · intro len dt hr
          rw [h2] at hr
          cases hr
    · rename_i len dataType hread
      have hdt : dataType ≠ 0x01 := hbody len dataType hread
      unfold onReadBody
      split
      · obtain ⟨h1, h2⟩ := close_read_fields { w.2 with async_read := none }
        refine ⟨rfl, ?_, ?_⟩
        · show 1 ≤ (close { w.2 with async_read := none }).m_cnt_read_packet
          rw [h1]; exact hcnt
        · intro len' dt hr
          rw [h2] at hr
          cases hr
      · simp only [hdt, if_false]
        refine ⟨trivial, ?_, ?_⟩
        · show 1 ≤ (async_read_header { w.2 with async_read := none }).m_cnt_read_packet
          unfold async_read_header
          split <;> exact hcnt
        · intro len' dt hr
          have hr' : (async_read_header { w.2 with async_read := none }).async_read =
              some (ReadOp.body len' dt) := hr
          unfold async_read_header at hr'
          split at hr' <;> cases hr'

theorem pastFirstFrame_sessionRun (self : Nat) (evs : List SessionEvent) (w : Server × Session)
    (h : pastFirstFrame w.2) : (sessionRun self evs w).1 = w.1 := by
  induction evs generalizing w with
  | nil => rfl
  | cons ev rest ih =>
    obtain ⟨h1, h2⟩ := pastFirstFrame_sessionStep self ev w h
    show (sessionRun self rest (sessionStep self ev w)).1 = w.1
    rw [ih _ h2, h1]

theorem close_closed_fields (s : Session) (hclosed : s.m_socket_open = false) :
    (close s).m_socket_open = false ∧ (close s).async_writes = s.async_writes ∧
      (close s).m_que_write = s.m_que_write := by
  obtain ⟨so, rt, q, wr, cl, cnt, st, aw, sc, wif, ar⟩ := s
  cases cl <;> simp_all [close]

theorem runTask_closed (t : StrandTask) (s : Session) (hclosed : s.m_socket_open = false) :
    (runTask t s).m_socket_open = false ∧ (runTask t s).async_writes = s.async_writes ∧
      ((runTask t s).m_que_write = s.m_que_write ∨ (runTask t s).m_que_write = []) := by
  cases t with
  | deliver updates => simp [runTask, deliverTask, hclosed]
  | forceClose =>
    obtain ⟨h1, h2, h3⟩ := close_closed_fields s hclosed
    exact ⟨h1, h2, Or.inl h3⟩
  | clearQueue => simp [runTask, hclosed]

theorem sessionStep_closed (self : Nat) (ev : SessionEvent) (w : Server × Session)
    (hclosed : w.2.m_socket_open = false) :
    (sessionStep self ev w).1 = w.1 ∧ (sessionStep self ev w).2.m_socket_open = false ∧
      (sessionStep self ev w).2.async_writes = w.2.async_writes ∧
      ((sessionStep self ev w).2.m_que_write = w.2.m_que_write ∨
        (sessionStep self ev w).2.m_que_write = []) := by
  obtain ⟨srv, s⟩ := w
  obtain ⟨so, rt, q, wr, cl, cnt, st, aw, sc, wif, ar⟩ := s
  simp only at hclosed
  subst hclosed
  cases ev with
  | callDeliverUpdates updates => exact ⟨rfl, rfl, rfl, Or.inl rfl⟩
  | callForceClose => exact ⟨rfl, rfl, rfl, Or.inl rfl⟩
  | runPosted =>
    cases st with
    | nil => exact ⟨rfl, rfl, rfl, Or.inl rfl⟩
    | cons t rest =>
      obtain ⟨h1, h2, h3⟩ := runTask_closed t
        { m_socket_open := false, m_req_type := rt, m_que_write := q, m_writing := wr,
          m_closing := cl, m_cnt_read_packet := cnt, strand := rest, async_writes := aw,
          socket_closes := sc, writes_in_flight := wif, async_read := ar } rfl
      exact ⟨rfl, h1, h2, h3⟩
  | writeDone ec =>
    simp only [sessionStep]
    split
    · exact ⟨rfl, rfl, rfl, Or.inl rfl⟩
    · cases cl <;> simp [onWrite, close]
  | readDone ec bytes =>
    simp only [sessionStep]
    split
    · exact ⟨rfl, rfl, rfl, Or.inl rfl⟩
    · cases cl <;> simp [onReadHeader, close]
    · cases cl <;> simp [onReadBody, close]

theorem sessionRun_closed (self : Nat) (evs : List SessionEvent) (w : Server × Session)
    (hclosed : w.2.m_socket_open = false) :
    (sessionRun self evs w).1 = w.1 ∧ (sessionRun self evs w).2.m_socket_open = false ∧
      (sessionRun self evs w).2.async_writes = w.2.async_writes ∧
      ((sessionRun self evs w).2.m_que_write = w.2.m_que_write ∨
        (sessionRun self evs w).2.m_que_write = []) := by
  induction evs generalizing w with
  | nil => exact ⟨rfl, hclosed, rfl, Or.inl rfl⟩
  | cons ev rest ih =>
    obtain ⟨h1, h2, h3, h4⟩ := sessionStep_closed self ev w hclosed
    obtain ⟨k1, k2, k3, k4⟩ := ih _ h2
    refine ⟨k1.trans h1, k2, k3.trans h3, ?_⟩
    rcases k4 with k | k
    · rcases h4 with h | h
      · exact Or.inl (k.trans h)
      · exact Or.inr (k.trans h)
    · exact Or.inr k

/-- C15: on a session that has already counted a header, the handler of every
further header read closes the session whatever the header holds (the result
does not depend on the bytes) and starts no read; a session that has counted a
header and is not reading the body of a subscribe frame is never registered by
any later event, and this is the state of a session whose first frame was not a
subscribe; once the session is closed the handler of `DeliverUpdates` changes
nothing and no event hands a further frame to the socket or adds one to the
write queue. -/
theorem C15_second_request_closes (self : Nat) (srv : Server) (s : Session)
    (buf : List Nat) (hinv : writeInv s) (hcnt : 1 ≤ s.m_cnt_read_packet) :
    (∀ other : List Nat, onReadHeader false buf s = onReadHeader false other s) ∧
      onReadHeader false buf s =
        close { s with m_cnt_read_packet := s.m_cnt_read_packet + 1 } ∧
      (onReadHeader false buf s).m_closing = true ∧
      (onReadHeader false buf s).m_socket_open = false ∧
      (onReadHeader false buf s).async_read = s.async_read ∧
      (pastFirstFrame s → ∀ evs, (sessionRun self evs (srv, s)).1 = srv) ∧
      (∀ (s0 : Session) (first : List Nat), first.length = 8 → s0.m_cnt_read_packet = 0 →
        s0.async_read = some ReadOp.header → s0.m_socket_open = true →
        byteAt first 3 ≠ 0x01 →
        pastFirstFrame (sessionStep self (SessionEvent.readDone false first) (srv, s0)).2) ∧
      (∀ updates, deliverTask updates (onReadHeader false buf s) = onReadHeader false buf s) ∧
      (∀ evs,
        (sessionRun self evs (srv, onReadHeader false buf s)).2.async_writes =
            (onReadHeader false buf s).async_writes ∧
          ((sessionRun self evs (srv, onReadHeader false buf s)).2.m_que_write =
              (onReadHeader false buf s).m_que_write ∨
            (sessionRun self evs (srv, onReadHeader false buf s)).2.m_que_write = [])) := by
  have hsec : ∀ b : List Nat, onReadHeader false b s =
      close { s with m_cnt_read_packet := s.m_cnt_read_packet + 1 } := by
    intro b
    rw [onReadHeader_second false b s hcnt]
    simp
  have hinv1 : writeInv { s with m_cnt_read_packet := s.m_cnt_read_packet + 1 } := hinv
  have hcl := close_closes { s with m_cnt_read_packet := s.m_cnt_read_packet + 1 }
    (by
      intro hc
      have h1 := hinv.1
      have hc' : s.m_closing = true := hc
      rw [hc'] at h1
      cases hso : s.m_socket_open
      · rfl
      · rw [hso] at h1; simp at h1)
  have hclosed : (onReadHeader false buf s).m_socket_open = false := by
    rw [hsec]; exact hcl.2
  refine ⟨fun other => (hsec buf).trans (hsec other).symm, hsec buf, ?_, hclosed, ?_, ?_, ?_,
    ?_, ?_⟩
  · rw [hsec]; exact hcl.1
  · rw [hsec]; exact (close_read_fields _).2
  · intro hp evs
    exact pastFirstFrame_sessionRun self evs (srv, s) hp
  · intro s0 first hlen h0 hread hopen hdt
    rw [sessionStep_readHeader self srv s0 first hlen hread hopen,
      onReadHeader_first first { s0 with async_read := none } hlen h0]
    by_cases hacc : specHeaderAccepted first
    · simp [hacc, async_read_body, hopen, pastFirstFrame, hdt]
    · obtain ⟨h1, h2⟩ := close_read_fields
        { ({ s0 with async_read := none } : Session) with m_cnt_read_packet := 1 }
      simp only [hacc, if_false, pastFirstFrame, h1, h2]
      simp
  · intro updates
    simp [deliverTask, hclosed]
  · intro evs
    obtain ⟨_, _, h3, h4⟩ := sessionRun_closed self evs (srv, onReadHeader false buf s) hclosed
    exact ⟨h3, h4⟩

/-- Scenario S5 for C15: the started session has received a data header as its
first frame; a second, well-formed subscribe header closes it, and no run of
events (here the empty body, then the subscribe header and its payload) puts
the session into the registry. -/
theorem C15_second_request_closes_witness :
    (onReadHeader false headerSubscribe afterData0).m_closing = true ∧
      (onReadHeader false headerSubscribe afterData0).m_socket_open = false ∧
      (sessionRun 0
        [SessionEvent.readDone false [], SessionEvent.readDone false headerSubscribe,
         SessionEvent.readDone false [3]] ({}, afterData0)).1 = {} :=
  ⟨(C15_second_request_closes 0 {} afterData0 headerSubscribe (by decide) (by decide)).2.2.1,
    (C15_second_request_closes 0 {} afterData0 headerSubscribe (by decide) (by decide)).2.2.2.1,
    (C15_second_request_closes 0 {} afterData0 headerSubscribe (by decide)
      (by decide)).2.2.2.2.2.1
      ⟨by decide, fun len dt h => by
        have hread : afterData0.async_read = some (ReadOp.body 0 2) := by decide
        rw [hread] at h
        cases h
        decide⟩ _⟩

/-- C16: `handle_subscribe` with an empty payload closes the session (latch
set, socket closed) and does nothing else: the filter byte, the write queue and
the frames handed to the socket are unchanged, the only handler it may post is
the one that clears the queue, the server (table, queue, registry) is returned
as it was, and the resulting session does not depend on the server. -/
theorem C16_empty_subscribe (self : Nat) (srv : Server) (s : Session)
    (hinv : s.m_closing = true → s.m_socket_open = false) :
    (handle_subscribe [] self srv s).1 = srv ∧
      (handle_subscribe [] self srv s).2 = close s ∧
      (handle_subscribe [] self srv s).2.m_closing = true ∧
      (handle_subscribe [] self srv s).2.m_socket_open = false ∧
      (handle_subscribe [] self srv s).2.m_req_type = s.m_req_type ∧
      (handle_subscribe [] self srv s).2.m_que_write = s.m_que_write ∧
      (handle_subscribe [] self srv s).2.async_writes = s.async_writes ∧
      (∀ t, t ∈ (handle_subscribe [] self srv s).2.strand →
        t ∈ s.strand ∨ t = StrandTask.clearQueue) ∧
      (∀ other : Server,
        (handle_subscribe [] self other s).2 = (handle_subscribe [] self srv s).2) := by
  have hcl := close_closes s hinv
  refine ⟨rfl, rfl, hcl.1, hcl.2, ?_, ?_, ?_, ?_, fun _ => rfl⟩
  · show (close s).m_req_type = s.m_req_type
    obtain ⟨so, rt, q, wr, cl, cnt, st, aw, sc, wif, ar⟩ := s
    cases so <;> cases cl <;> simp [close]
  · show (close s).m_que_write = s.m_que_write
    obtain ⟨so, rt, q, wr, cl, cnt, st, aw, sc, wif, ar⟩ := s
    cases so <;> cases cl <;> simp [close]
  · show (close s).async_writes = s.async_writes
    obtain ⟨so, rt, q, wr, cl, cnt, st, aw, sc, wif, ar⟩ := s
    cases so <;> cases cl <;> simp [close]
  · intro t ht
    have ht' : t ∈ (close s).strand := ht
    obtain ⟨so, rt, q, wr, cl, cnt, st, aw, sc, wif, ar⟩ := s
    cases so <;> cases cl <;> simp_all [close]

/-- A use of C16: an empty subscribe payload on the session of scenario S2, with
the table of scenario S1 on the server. -/
theorem C16_empty_subscribe_witness :
    (handle_subscribe [] 0 { m_state := tableS1 } sessionS2).1 = { m_state := tableS1 } ∧
      (handle_subscribe [] 0 { m_state := tableS1 } sessionS2).2.m_closing = true ∧
      (handle_subscribe [] 0 { m_state := tableS1 } sessionS2).2.m_socket_open = false ∧
      (handle_subscribe [] 0 { m_state := tableS1 } sessionS2).2.m_req_type = 2 :=
  ⟨(C16_empty_subscribe 0 { m_state := tableS1 } sessionS2 (by decide)).1,
    (C16_empty_subscribe 0 { m_state := tableS1 } sessionS2 (by decide)).2.2.1,
    (C16_empty_subscribe 0 { m_state := tableS1 } sessionS2 (by decide)).2.2.2.1,
    (C16_empty_subscribe 0 { m_state := tableS1 } sessionS2 (by decide)).2.2.2.2.1⟩

/-! ## The claims on the write path and on `close` -/

theorem writeInv_started : writeInv startedSession := by decide

/-- C18: every state that a session satisfying the invariant (a started session
does) reaches through calls of `DeliverUpdates` and `ForceClose`, posted
handlers, write completions with or without error and read completions has at
most one write in flight and has `m_writing` set exactly when the write queue
is not empty; the handler of `DeliverUpdates` starts a write only when the
queue is empty, `m_writing` is unset and no write is in flight, and a write
completion starts one only after the write in flight has completed without
error. -/
theorem C18_single_write_in_flight (self : Nat) (srv : Server) (s : Session)
    (evs : List SessionEvent) (hinv : writeInv s) :
    (sessionRun self evs (srv, s)).2.writes_in_flight ≤ 1 ∧
      ((sessionRun self evs (srv, s)).2.m_writing = true ↔
        (sessionRun self evs (srv, s)).2.m_que_write ≠ []) ∧
      writeInv (sessionRun self evs (srv, s)).2 ∧
      (∀ updates, (deliverTask updates s).async_writes ≠ s.async_writes →
        s.m_que_write = [] ∧ s.m_writing = false ∧ s.writes_in_flight = 0 ∧
          (deliverTask updates s).writes_in_flight = 1) ∧
      (∀ ec, (sessionStep self (SessionEvent.writeDone ec) (srv, s)).2.async_writes ≠
          s.async_writes →
        ec = false ∧ s.writes_in_flight = 1 ∧
          (sessionStep self (SessionEvent.writeDone ec) (srv, s)).2.writes_in_flight = 1) := by
  have hrun := writeInv_sessionRun self evs (srv, s) hinv
  refine ⟨hrun.2.2.1, ?_, hrun, ?_, ?_⟩
  · have h2 := hrun.2.1
    rw [h2]
    cases (sessionRun self evs (srv, s)).2.m_que_write <;> simp
  · intro updates hne
    obtain ⟨so, rt, q, wr, cl, cnt, st, aw, sc, wif, ar⟩ := s
    simp only [writeInv] at hinv
    cases so <;> cases wr <;> cases q <;> simp_all [deliverTask, do_write]
    omega
  · intro ec hne
    obtain ⟨so, rt, q, wr, cl, cnt, st, aw, sc, wif, ar⟩ := s
    simp only [writeInv] at hinv
    by_cases hw : wif = 0
    · simp [sessionStep, hw] at hne
    · have hone : wif = 1 := by omega
      subst hone
      cases so <;> cases cl <;> cases ec <;> cases wr <;> cases q with
      | nil => simp_all [sessionStep, onWrite, close, do_write]
      | cons f rest => cases rest <;> simp_all [sessionStep, onWrite, close, do_write]

/-- A use of C18: the started session is delivered two batches, the first write
completes, the session is force-closed and the second write is aborted. -/
theorem C18_single_write_in_flight_witness :
    (sessionRun 0
        [SessionEvent.callDeliverUpdates [updateS1], SessionEvent.callDeliverUpdates [updateS1],
         SessionEvent.runPosted, SessionEvent.runPosted, SessionEvent.writeDone false,
         SessionEvent.callForceClose, SessionEvent.runPosted, SessionEvent.writeDone true]
        ({}, startedSession)).2.writes_in_flight ≤ 1 :=
  (C18_single_write_in_flight 0 {} startedSession _ (by decide)).1

/-- C19: `close` on a session whose closing flag is unset sets the flag, leaves
the socket closed (one shutdown if it was open) and posts the handler that
clears the write queue, after which the queue is empty and `m_writing` unset;
on a session whose flag is set it changes nothing; so `close` after `close` is
`close`, and in every state that a started session reaches the socket has been
shut down at most once. -/
theorem C19_close_one_shot (s : Session) :
    (s.m_closing = false →
        (close s).m_closing = true ∧ (close s).m_socket_open = false ∧
        (close s).socket_closes = s.socket_closes + (if s.m_socket_open then 1 else 0) ∧
        (close s).strand = s.strand ++ [StrandTask.clearQueue] ∧
        (close s).m_que_write = s.m_que_write ∧ (close s).m_writing = s.m_writing) ∧
      (∀ x : Session, (runTask StrandTask.clearQueue x).m_que_write = [] ∧
        (runTask StrandTask.clearQueue x).m_writing = false) ∧
      (s.m_closing = true → close s = s) ∧
      close (close s) = close s ∧
      (∀ (self : Nat) (srv : Server) (evs : List SessionEvent),
        (sessionRun self evs (srv, startedSession)).2.socket_closes ≤ 1) := by
  refine ⟨?_, fun x => ⟨rfl, rfl⟩, close_of_closing s, ?_, ?_⟩
  · intro hc
    rw [close_of_not_closing s hc]
    exact ⟨rfl, rfl, rfl, rfl, rfl, rfl⟩
  · obtain ⟨so, rt, q, wr, cl, cnt, st, aw, sc, wif, ar⟩ := s
    cases so <;> cases cl <;> simp [close]
  · intro self srv evs
    have h := (writeInv_sessionRun self evs (srv, startedSession) writeInv_started).2.2.2.2.1
    rw [h]
    split <;> omega

/-- A use of C19: `close` on the started session, then the posted handler. -/
theorem C19_close_one_shot_witness :
    ((close startedSession).m_closing = true ∧ (close startedSession).m_socket_open = false ∧
        (close startedSession).socket_closes = 0 + (if true then 1 else 0) ∧
        (close startedSession).strand = [] ++ [StrandTask.clearQueue] ∧
        (close startedSession).m_que_write = [] ∧ (close startedSession).m_writing = false) ∧
      close (close startedSession) = close startedSession :=
  ⟨(C19_close_one_shot startedSession).1 (by decide), (C19_close_one_shot startedSession).2.2.2.1⟩

theorem drainLoop_eq (q batch : List Signal) : drainLoop q batch = ([], batch ++ q) := by
  induction q generalizing batch with
  | nil => simp [drainLoop]
  | cons x rest ih => simp [drainLoop, ih]

theorem broadcastLoop_fst (batch : List Signal) (subs : List Nat) (ss : Sessions) :
    (broadcastLoop batch subs ss).1 = subs.filter (fun w => (ss w).isSome) := by
  induction subs generalizing ss with
  | nil => rfl
  | cons w rest ih =>
    cases hw : ss w with
    | none => simp [broadcastLoop, hw, ih]
    | some sp =>
      have hlive : ∀ h, (if h = w then some (DeliverUpdates batch sp) else ss h).isSome =
          (ss h).isSome := by
        intro h
        by_cases hh : h = w
        · simp [hh, hw]
        · simp [hh]
      simp only [broadcastLoop, hw, ih, hlive]
      simp [List.filter_cons, hw]

theorem broadcastLoop_snd (batch : List Signal) (subs : List Nat) (ss : Sessions) (h : Nat) :
    (broadcastLoop batch subs ss).2 h =
      (ss h).map (fun sp =>
        { sp with strand := sp.strand ++
            List.replicate (subs.count h) (StrandTask.deliver batch) }) := by
  induction subs generalizing ss with
  | nil =>
    cases hs : ss h <;> simp [broadcastLoop, hs]
  | cons w rest ih =>
    cases hw : ss w with
    | none =>
      simp only [broadcastLoop, hw, ih]
      by_cases hh : h = w
      · subst hh
        simp [hw]
      · have hh' : ¬ w = h := fun e => hh e.symm
        simp [List.count_cons, hh']
    | some sp =>
      simp only [broadcastLoop, hw, ih]
      by_cases hh : h = w
      · subst hh
        simp [hw, DeliverUpdates, List.count_cons, List.replicate_succ]
      · have hh' : ¬ w = h := fun e => hh e.symm
        simp [hh, List.count_cons, hh']

/-- C20: the drain loop of the dispatcher turns the queue `q` into the batch
`q`, in order, and leaves the queue empty; with a non-empty queue one pass
keeps exactly the registry entries whose session is alive, in their order,
posts one `DeliverUpdates` handler with the whole batch to a session for each
of its registry entries (none to a session without an entry) and leaves the
table as it was; with an empty queue it changes neither the server nor any
session. -/
theorem C20_dispatcher_iteration (srv : Server) (ss : Sessions) :
    drainLoop srv.m_queue [] = ([], srv.m_queue) ∧
      (srv.m_queue ≠ [] →
        (dispatcherIteration srv ss).1.m_queue = [] ∧
        (dispatcherIteration srv ss).1.m_subscribers =
          srv.m_subscribers.filter (fun w => (ss w).isSome) ∧
        (dispatcherIteration srv ss).1.m_state = srv.m_state ∧
        (∀ h, (dispatcherIteration srv ss).2 h =
          (ss h).map (fun sp =>
            { sp with strand := sp.strand ++
                List.replicate (srv.m_subscribers.count h) (StrandTask.deliver srv.m_queue) })) ∧
        (∀ h, h ∉ srv.m_subscribers → (dispatcherIteration srv ss).2 h = ss h)) ∧
      (srv.m_queue = [] → dispatcherIteration srv ss = (srv, ss)) := by
  have hdrain : drainLoop srv.m_queue [] = ([], srv.m_queue) := by
    rw [drainLoop_eq]; rfl
  refine ⟨hdrain, ?_, ?_⟩
  · intro hne
    have hb : (!(srv.m_queue).isEmpty) = true := by
      cases hq : srv.m_queue with
      | nil => exact absurd hq hne
      | cons x rest => rfl
    have hval : dispatcherIteration srv ss =
        ({ srv with m_queue := [],
                    m_subscribers := (broadcastLoop srv.m_queue srv.m_subscribers ss).1 },
          (broadcastLoop srv.m_queue srv.m_subscribers ss).2) := by
      simp only [dispatcherIteration, hdrain, hb, if_true]
    have hsnd := broadcastLoop_snd srv.m_queue srv.m_subscribers ss
    rw [hval]
    refine ⟨rfl, broadcastLoop_fst _ _ _, rfl, hsnd, ?_⟩
    intro h hreg
    show (broadcastLoop srv.m_queue srv.m_subscribers ss).2 h = ss h
    rw [hsnd, List.count_eq_zero_of_not_mem hreg]
    cases ss h <;> simp
  · intro hq
    have hval : dispatcherIteration srv ss = ({ srv with m_queue := [] }, ss) := by
      simp [dispatcherIteration, hq, drainLoop]
    rw [hval]
    cases srv
    simp_all

/-- A use of C20: the queue holds the two updates of scenario S1, the registry
the handles 0, 1 and 2, of which 1 has expired; the pass empties the queue,
keeps the handles 0 and 2 and posts the batch of both updates to each of the
two sessions. -/
theorem C20_dispatcher_iteration_witness :
    (dispatcherIteration { m_queue := [updateS1, updateAnalog2], m_subscribers := [0, 1, 2] }
        twoSessions).1.m_queue = [] ∧
      (dispatcherIteration { m_queue := [updateS1, updateAnalog2], m_subscribers := [0, 1, 2] }
        twoSessions).1.m_subscribers = [0, 2] ∧
      ((dispatcherIteration { m_queue := [updateS1, updateAnalog2], m_subscribers := [0, 1, 2] }
        twoSessions).2 2).map Session.strand =
          some [StrandTask.deliver [updateS1, updateAnalog2]] := by
  have h := (C20_dispatcher_iteration
    { m_queue := [updateS1, updateAnalog2], m_subscribers := [0, 1, 2] } twoSessions).2.1
    (by decide)
  refine ⟨h.1, h.2.1.trans (by decide), ?_⟩
  rw [h.2.2.2.1 2]
  decide

/-! ## The claim on the accept loop -/

theorem acceptRun_idle (ecs : List ErrorCode) (a : Acceptor) (h : a.accept_pending = 0) :
    acceptRun ecs a = a := by
  induction ecs with
  | nil => rfl
  | cons ec rest ih =>
    have hstep : acceptStep ec a = a := by simp [acceptStep, h]
    simp only [acceptRun, hstep, ih]

theorem onAccept_pending (ec : ErrorCode) (a : Acceptor) :
    (onAccept ec a).accept_pending =
      if ec = ErrorCode.success ∨ ec = ErrorCode.would_block ∨ ec = ErrorCode.interrupted
      then a.accept_pending + 1 else a.accept_pending := by
  cases ec <;> simp [onAccept, do_accept]

/-- C21: the handler of `do_accept` starts the next accept exactly when the
accept succeeded (it then appends one started session) or failed with
would-block or interrupted; in the other cases the number of outstanding
accepts is unchanged; only a success creates a session; on cancellation the
handler changes nothing; and once an error other than these has consumed the
only outstanding accept, no later completion happens: the acceptor stays as it
is and no further session is created. -/
theorem C21_accept_error_policy (ec : ErrorCode) (a : Acceptor) :
    ((onAccept ec a).accept_pending = a.accept_pending + 1 ↔
        (ec = ErrorCode.success ∨ ec = ErrorCode.would_block ∨ ec = ErrorCode.interrupted)) ∧
      (¬ (ec = ErrorCode.success ∨ ec = ErrorCode.would_block ∨ ec = ErrorCode.interrupted) →
        (onAccept ec a).accept_pending = a.accept_pending) ∧
      (ec = ErrorCode.success →
        (onAccept ec a).started = a.started ++ [async_read_header {}] ∧
          (onAccept ec a).log = a.log) ∧
      (ec ≠ ErrorCode.success → (onAccept ec a).started = a.started) ∧
      (ec = ErrorCode.operation_aborted → onAccept ec a = a) ∧
      (¬ (ec = ErrorCode.success ∨ ec = ErrorCode.would_block ∨ ec = ErrorCode.interrupted) →
        a.accept_pending = 1 →
        (acceptStep ec a).accept_pending = 0 ∧
          ∀ ecs, acceptRun ecs (acceptStep ec a) = acceptStep ec a) := by
  have hp := onAccept_pending ec a
  refine ⟨?_, ?_, ?_, ?_, ?_, ?_⟩
  · rw [hp]
    by_cases h : ec = ErrorCode.success ∨ ec = ErrorCode.would_block ∨ ec = ErrorCode.interrupted
    · simp [h]
    · simp [h]
  · intro h
    rw [hp, if_neg h]
  · intro h
    subst h
    simp [onAccept, do_accept]
  · intro h
    cases ec <;> simp_all [onAccept, do_accept]
  · intro h
    subst h
    simp [onAccept]
  · intro h h1
    have hzero : (acceptStep ec a).accept_pending = 0 := by
      have hp' := onAccept_pending ec { a with accept_pending := a.accept_pending - 1 }
      simp only [acceptStep, h1]
      rw [if_neg h] at hp'
      simpa [h1] using hp'
    exact ⟨hzero, fun ecs => acceptRun_idle ecs _ hzero⟩

/-- A use of C21: the started acceptor accepts a connection and re-arms, an
interrupted accept re-arms, then a bad descriptor (error 10009) stops the
loop: the later completions create no session. -/
theorem C21_accept_error_policy_witness :
    (acceptStep (ErrorCode.other 10009)
        (acceptStep ErrorCode.interrupted
          (acceptStep ErrorCode.success acceptorStarted))).accept_pending = 0 ∧
      ∀ ecs, acceptRun ecs
          (acceptStep (ErrorCode.other 10009)
            (acceptStep ErrorCode.interrupted
              (acceptStep ErrorCode.success acceptorStarted))) =
        acceptStep (ErrorCode.other 10009)
          (acceptStep ErrorCode.interrupted
            (acceptStep ErrorCode.success acceptorStarted)) :=
  (C21_accept_error_policy (ErrorCode.other 10009)
    (acceptStep ErrorCode.interrupted
      (acceptStep ErrorCode.success acceptorStarted))).2.2.2.2.2 (by decide) (by decide)

/-! ## The claim on the type of a signal -/

theorem byteAt_recordBytes (e : Signal) : byteAt (recordBytes e) 4 = e.type % 256 := by
  have h4 : (memBytes 4 (host_to_net_u32 e.id)).length = 4 := memBytes_length _ _
  simp only [recordBytes, List.append_assoc, byteAt]
  rw [List.getD_append_right _ _ _ _ (by rw [h4]), h4]
  simp

theorem applyOp_oneHot (op : ServerOp) (w : Server × Sessions)
    (hop : ∀ x, x ∈ op.signals → oneHot x.type)
    (htab : ∀ q, q ∈ w.1.m_state → oneHot q.2.type)
    (hque : ∀ e, e ∈ w.1.m_queue → oneHot e.type) :
    (∀ q, q ∈ (applyOp op w).1.m_state → oneHot q.2.type) ∧
      (∀ e, e ∈ (applyOp op w).1.m_queue → oneHot e.type) := by
  cases op with
  | setSignals X =>
    refine ⟨?_, hque⟩
    intro q hq
    have hq' : q ∈ setLoop X [] := hq
    rcases setLoop_mem X [] q hq' with h | ⟨h1, _⟩
    · cases h
    · exact hop _ h1
  | pushSignal s =>
    have hs : oneHot s.type := hop s (List.mem_singleton.mpr rfl)
    cases hadm : (PushSignal s w.1).2 with
    | false =>
      have hst : (applyOp (ServerOp.pushSignal s) w).1 = w.1 := PushSignal_rejected s w.1 hadm
      rw [hst]
      exact ⟨htab, hque⟩
    | true =>
      have hst : (applyOp (ServerOp.pushSignal s) w).1 =
          { w.1 with m_state := w.1.m_state.assign s.id s, m_queue := w.1.m_queue ++ [s] } := by
        show (PushSignal s w.1).1 = _
        rw [PushSignal_state, hadm]; rfl
      rw [hst]
      constructor
      · intro q hq
        rcases Table.mem_assign _ _ _ q hq with h | h
        · exact htab q h
        · rw [h]; exact hs
      · intro e he
        rcases List.mem_append.mp he with h | h
        · exact hque e h
        · rw [List.mem_singleton.mp h]; exact hs

theorem applyOps_oneHot (ops : List ServerOp) (w : Server × Sessions)
    (hops : ∀ op, op ∈ ops → ∀ x, x ∈ op.signals → oneHot x.type)
    (htab : ∀ q, q ∈ w.1.m_state → oneHot q.2.type)
    (hque : ∀ e, e ∈ w.1.m_queue → oneHot e.type) :
    (∀ q, q ∈ (applyOps ops w).1.m_state → oneHot q.2.type) ∧
      (∀ e, e ∈ (applyOps ops w).1.m_queue → oneHot e.type) := by
  induction ops generalizing w with
  | nil => exact ⟨htab, hque⟩
  | cons op rest ih =>
    obtain ⟨h1, h2⟩ := applyOp_oneHot op w (hops op (List.mem_cons_self _ _)) htab hque
    exact ih _ (fun o ho => hops o (List.mem_cons_of_mem _ ho)) h1 h2

/-- C22 (as stated, refuted): `SetSignals` of a signal whose type has both bits
set and of a signal of type unknown stores both as given; a subscribe with
filter 1 then hands the first to `DeliverUpdates`, whose frame carries the type
byte 3. -/
theorem C22_type_not_checked :
    (applyOps [ServerOp.setSignals [signalBoth, signalUnknown]]
        ({}, fun _ => none)).1.m_state.find 1 = some signalBoth ∧
      ¬ oneHot signalBoth.type ∧
      (applyOps [ServerOp.setSignals [signalBoth, signalUnknown]]
        ({}, fun _ => none)).1.m_state.find 2 = some signalUnknown ∧
      ¬ oneHot signalUnknown.type ∧
      (handle_subscribe [1] 0
        (applyOps [ServerOp.setSignals [signalBoth, signalUnknown]] ({}, fun _ => none)).1
        {}).2.strand = [StrandTask.deliver [signalBoth]] ∧
      (deliverTask [signalBoth] { m_req_type := 1 }).m_que_write =
        [[0xAA, 0x55, 1, 2, 0, 0, 0, 13, 0, 0, 0, 1, 3, 0, 0, 0, 0, 0, 0, 0, 0]] ∧
      ¬ oneHot (byteAt (recordBytes signalBoth) 4) := by
  decide

/-- C22 (amended): `SetSignals` and `PushSignal` store the type they are given;
when the table and the queue hold, and every call is given, only signals of
type discrete or analog, then after every run of calls every stored signal,
every queued update and every signal of a snapshot has such a type, and every
record that `DeliverUpdates` builds from such updates carries this type as its
type byte. With no assumption, the type of a record on the wire has a bit in
common with the filter of the session. -/
theorem C22_one_hot_preserved (ops : List ServerOp) (srv : Server) (ss : Sessions)
    (hops : ∀ op, op ∈ ops → ∀ x, x ∈ op.signals → oneHot x.type)
    (htab : ∀ q, q ∈ srv.m_state → oneHot q.2.type)
    (hque : ∀ e, e ∈ srv.m_queue → oneHot e.type) :
    (∀ q, q ∈ (applyOps ops (srv, ss)).1.m_state → oneHot q.2.type) ∧
      (∀ e, e ∈ (applyOps ops (srv, ss)).1.m_queue → oneHot e.type) ∧
      (∀ f x, x ∈ (GetSnapshot f (applyOps ops (srv, ss)).1).2 → oneHot x.type) ∧
      (∀ (F : Nat) (updates : List Signal), (∀ e, e ∈ updates → oneHot e.type) →
        ∀ e, e ∈ updates.filter (fun e => typeMatches e.type F) →
          byteAt (recordBytes e) 4 = e.type ∧ oneHot (byteAt (recordBytes e) 4)) ∧
      (∀ (F : Nat) (updates : List Signal) (e : Signal),
        e ∈ updates.filter (fun e => typeMatches e.type F) → e.type &&& F ≠ 0) := by
  obtain ⟨h1, h2⟩ := applyOps_oneHot ops (srv, ss) hops htab hque
  refine ⟨h1, h2, ?_, ?_, ?_⟩
  · intro f x hx
    obtain ⟨⟨k, hmem⟩, _⟩ := (mem_GetSnapshot f _ x).mp hx
    exact h1 (k, x) hmem
  · intro F updates hall e he
    have hone : oneHot e.type := hall e (List.mem_filter.mp he).1
    have hbyte : byteAt (recordBytes e) 4 = e.type := by
      rw [byteAt_recordBytes]
      rcases hone with h | h <;> rw [h] <;> decide
    exact ⟨hbyte, by rw [hbyte]; exact hone⟩
  · intro F updates e he
    exact (typeMatches_iff _ _).mp (List.mem_filter.mp he).2

/-- Scenario S1 for C22: `SetSignals` of the two signals of scenario S1 and the
push of the discrete update; the stored signal of id 1 is discrete, and so is
the type byte of its record. -/
theorem C22_one_hot_preserved_witness :
    (∀ q, q ∈ (applyOps [ServerOp.setSignals (tableS1.map Prod.snd), ServerOp.pushSignal updateS1]
        ({}, fun _ => none)).1.m_state → oneHot q.2.type) ∧
      (byteAt (recordBytes updateS1) 4 = updateS1.type ∧
        oneHot (byteAt (recordBytes updateS1) 4)) :=
  ⟨(C22_one_hot_preserved
      [ServerOp.setSignals (tableS1.map Prod.snd), ServerOp.pushSignal updateS1] {}
      (fun _ => none) (by decide) (by decide) (by decide)).1,
    (C22_one_hot_preserved
      [ServerOp.setSignals (tableS1.map Prod.snd), ServerOp.pushSignal updateS1] {}
      (fun _ => none) (by decide) (by decide) (by decide)).2.2.2.1 3 [updateS1] (by decide)
      updateS1 (by decide)⟩

/-! ## The claim on the length of a subscribe payload -/

/-- C23 (as stated, refuted): a subscribe payload of two bytes is accepted: the
first byte becomes the filter, the session is registered and stays open; the
same happens when the started session reads a subscribe header announcing two
bytes and then these two bytes. -/
theorem C23_two_byte_subscribe_accepted :
    (handle_subscribe [2, 7] 0 {} {}).1.m_subscribers = [0] ∧
      (handle_subscribe [2, 7] 0 {} {}).2.m_req_type = 2 ∧
      (handle_subscribe [2, 7] 0 {} {}).2.m_closing = false ∧
      (handle_subscribe [2, 7] 0 {} {}).2.m_socket_open = true ∧
      (sessionRun 0
        [SessionEvent.readDone false [0xAA, 0x55, 1, 1, 0, 0, 0, 2],
         SessionEvent.readDone false [2, 7]] ({}, startedSession)).1.m_subscribers = [0] ∧
      (sessionRun 0
        [SessionEvent.readDone false [0xAA, 0x55, 1, 1, 0, 0, 0, 2],
         SessionEvent.readDone false [2, 7]] ({}, startedSession)).2.m_closing = false := by
  decide

/-- C23 (amended): `handle_subscribe` registers the session exactly when the
payload is not empty; for a payload of one or more bytes it does what it does
for the first byte alone: that byte becomes the filter, the session is
registered, and the latch and the socket are left as they were; the empty
payload closes the session and leaves the server as it was. -/
theorem C23_subscribe_payload (payload : List Nat) (self : Nat) (srv : Server) (s : Session) :
    ((handle_subscribe payload self srv s).1.m_subscribers = srv.m_subscribers ++ [self] ↔
        payload ≠ []) ∧
      (∀ b rest, payload = b :: rest →
        handle_subscribe payload self srv s = handle_subscribe [b] self srv s ∧
          (handle_subscribe payload self srv s).2.m_req_type = b ∧
          (handle_subscribe payload self srv s).2.m_closing = s.m_closing ∧
          (handle_subscribe payload self srv s).2.m_socket_open = s.m_socket_open) ∧
      (payload = [] → handle_subscribe payload self srv s = (srv, close s)) := by
  have hcons : ∀ b rest, (handle_subscribe (b :: rest) self srv s).1.m_subscribers =
      srv.m_subscribers ++ [self] ∧
      (handle_subscribe (b :: rest) self srv s).2.m_req_type = b ∧
      (handle_subscribe (b :: rest) self srv s).2.m_closing = s.m_closing ∧
      (handle_subscribe (b :: rest) self srv s).2.m_socket_open = s.m_socket_open := by
    intro b rest
    simp only [handle_subscribe]
    split <;> simp [RegisterSession, DeliverUpdates]
  refine ⟨?_, ?_, ?_⟩
  · cases payload with
    | nil => simp [handle_subscribe]
    | cons b rest => simp [(hcons b rest).1]
  · intro b rest hp
    subst hp
    exact ⟨rfl, (hcons b rest).2⟩
  · intro hp
    subst hp
    rfl

/-- A use of C23 (amended): the payloads `[3]` and `[3, 9, 9]` give the same
result, with filter 3. -/
theorem C23_subscribe_payload_witness :
    handle_subscribe [3, 9, 9] 0 { m_state := tableS1 } {} =
        handle_subscribe [3] 0 { m_state := tableS1 } {} ∧
      (handle_subscribe [3, 9, 9] 0 { m_state := tableS1 } {}).2.m_req_type = 3 :=
  ⟨((C23_subscribe_payload [3, 9, 9] 0 { m_state := tableS1 } {}).2.1 3 [9, 9] rfl).1,
    ((C23_subscribe_payload [3, 9, 9] 0 { m_state := tableS1 } {}).2.1 3 [9, 9] rfl).2.1⟩

/-! ## The claim on the size of a frame -/

theorem overBatch_passes (e : Signal) (he : e ∈ overBatch) : typeMatches e.type 1 = true := by
  have h : e = updateS1 := List.eq_of_mem_replicate he
  rw [h]
  decide

theorem overBatch_filter : overBatch.filter (fun e => typeMatches e.type 1) = overBatch :=
  List.filter_eq_self.mpr overBatch_passes

theorem overBatch_length : overBatch.length = 806597 := List.length_replicate _ _

theorem buildFrame_length (F : Nat) (updates : List Signal) :
    (buildFrame F updates).length =
      8 + 13 * (updates.filter (fun e => typeMatches e.type F)).length := by
  rw [buildFrame_eq, List.length_append, flatten_recordBytes_length]
  simp [dataHeader, memBytes_length]

theorem replicate_frame_length (n : Nat) :
    (buildFrame 1 (List.replicate n updateS1)).length = 8 + 13 * n := by
  have hfil : (List.replicate n updateS1).filter (fun e => typeMatches e.type 1) =
      List.replicate n updateS1 :=
    List.filter_eq_self.mpr (fun e he => by
      rw [List.eq_of_mem_replicate he]; decide)
  rw [buildFrame_length, hfil, List.length_replicate]

/-- C24: the handler of `DeliverUpdates` builds a frame of `8 + 13 * k` bytes
for every number `k` of surviving updates (a batch with `k` survivors exists
for every `k`); when `13 * k < 2 ^ 32` the client reads the length `13 * k`
from the length field, and this length passes the size check of
`Client::start_read_header` exactly when `k ≤ 806596`; for `k ≥ 806597` the
handler of the client ends in `schedule_reconnect` (socket closed, one more
reconnect, no read started), as its oversize branch when the checks before it
pass; for `k ≤ 806596` with a header that passes these checks it goes on to
read the body. -/
theorem C24_size_agreement (F : Nat) (updates : List Signal) (hdr : ClientHeader) (c : Client)
    (hlen : 13 * (updates.filter (fun e => typeMatches e.type F)).length < 2 ^ 32)
    (hfield : hdr.len = (readHeader (buildFrame F updates)).len) :
    (buildFrame F updates).length =
        8 + 13 * (updates.filter (fun e => typeMatches e.type F)).length ∧
      (∀ n, (buildFrame 1 (List.replicate n updateS1)).length = 8 + 13 * n) ∧
      net_to_host_u32 hdr.len = 13 * (updates.filter (fun e => typeMatches e.type F)).length ∧
      (¬ (net_to_host_u32 hdr.len > 10 * 1024 * 1024) ↔
        (updates.filter (fun e => typeMatches e.type F)).length ≤ 806596) ∧
      (806597 ≤ (updates.filter (fun e => typeMatches e.type F)).length →
        (onClientHeader ErrorCode.success hdr c).reconnects = c.reconnects + 1 ∧
          (onClientHeader ErrorCode.success hdr c).m_socket_open = false ∧
          (onClientHeader ErrorCode.success hdr c).async_read = c.async_read ∧
          (net_to_host_u16 hdr.signature = SIGNAL_HEADER_SIGNATURE → hdr.version = 1 →
            hdr.msg_num = c.m_msg_num →
            onClientHeader ErrorCode.success hdr c =
              schedule_reconnect { c with m_msg_num := c.m_msg_num + 1 })) ∧
      ((updates.filter (fun e => typeMatches e.type F)).length ≤ 806596 →
        net_to_host_u16 hdr.signature = SIGNAL_HEADER_SIGNATURE → hdr.version = 1 →
        hdr.msg_num = c.m_msg_num →
        onClientHeader ErrorCode.success hdr c =
          start_read_body (13 * (updates.filter (fun e => typeMatches e.type F)).length)
            hdr.data_type { c with m_msg_num := c.m_msg_num + 1 }) := by
  have hval : net_to_host_u32 hdr.len =
      13 * (updates.filter (fun e => typeMatches e.type F)).length := by
    rw [hfield, (buildFrame_header F updates).2.2.2]
    exact Nat.mod_eq_of_lt hlen
  refine ⟨buildFrame_length F updates, replicate_frame_length, hval, ?_, ?_, ?_⟩
  · rw [hval]; omega
  · intro hk
    have hbig : net_to_host_u32 hdr.len > 10485760 := by rw [hval]; omega
    have hall : (onClientHeader ErrorCode.success hdr c).reconnects = c.reconnects + 1 ∧
        (onClientHeader ErrorCode.success hdr c).m_socket_open = false ∧
        (onClientHeader ErrorCode.success hdr c).async_read = c.async_read := by
      simp only [onClientHeader]
      by_cases h1 : net_to_host_u16 hdr.signature = SIGNAL_HEADER_SIGNATURE
      · by_cases h2 : hdr.version = 1
        · by_cases h3 : hdr.msg_num = c.m_msg_num
          · simp [h1, h2, h3, hbig, schedule_reconnect]
          · simp [h1, h2, h3, schedule_reconnect]
        · simp [h1, h2, schedule_reconnect]
      · simp [h1, schedule_reconnect]
    refine ⟨hall.1, hall.2.1, hall.2.2, ?_⟩
    intro h1 h2 h3
    simp [onClientHeader, h1, h2, h3, hbig]
  · intro hk h1 h2 h3
    have hsmall : ¬ net_to_host_u32 hdr.len > 10485760 := by rw [hval]; omega
    simp only [onClientHeader]
    simp [h1, h2, h3, hval]
    intro hcontra
    omega

/-- A use of C24: a batch of 806,597 updates gives a frame that the client
answers with a reconnect; the frame of a single update passes the size check. -/
theorem C24_size_agreement_witness :
    (onClientHeader ErrorCode.success
        { signature := 0x55AA, version := 1, data_type := 2, msg_num := 0,
          len := (readHeader (buildFrame 1 overBatch)).len } {}).reconnects = 0 + 1 ∧
      (¬ (net_to_host_u32 (readHeader (buildFrame 1 [updateS1])).len > 10 * 1024 * 1024) ↔
        ([updateS1].filter (fun e => typeMatches e.type 1)).length ≤ 806596) :=
  ⟨((C24_size_agreement 1 overBatch
      { signature := 0x55AA, version := 1, data_type := 2, msg_num := 0,
        len := (readHeader (buildFrame 1 overBatch)).len } {}
      (by rw [overBatch_filter, overBatch_length]; norm_num) rfl).2.2.2.2.1
      (by rw [overBatch_filter, overBatch_length])).1,
    (C24_size_agreement 1 [updateS1]
      { signature := 0x55AA, version := 1, data_type := 2, msg_num := 0,
        len := (readHeader (buildFrame 1 [updateS1])).len } {}
      (by decide) rfl).2.2.2.1⟩

end SignalServer
